import Mathlib

/-! Scaleway provider: load-balancer state upgrade and the cockpit-token resource.

A shallow embedding of

* `lbUpgradeV1SchemaUpgradeFunc`, the version-0 to version-1 state upgrade of
  the load-balancer resource (exercised by `TestLbUpgradeV1SchemaUpgradeFunc`
  in `resource_lb_test.go`);
* `resource_cockpit_token.go`: the declarative schema of the cockpit token and
  its create, read and delete handlers.

Vendor SDK calls are functions on an explicit vendor state; every call a
handler issues is recorded, with its request and its error, in a call log.
-/

namespace Scaleway

/-! ## Load-balancer state upgrade -/

/-- A value of a raw state map (`interface{}` in `map[string]interface{}`):
a string, or a value of another kind (numbers, booleans, nested values), kept
as an uninterpreted code. -/
inductive RawValue where
  | str (s : String)
  | other (code : Nat)
deriving DecidableEq, Repr

/-- A raw state (`map[string]interface{}`) as its list of entries; a Go map
holds each key once. -/
abbrev RawState := List (String × RawValue)

/-- Value stored under a key (`rawState[key]`), if any. -/
def RawState.get (rawState : RawState) (key : String) : Option RawValue :=
  (rawState.find? (fun kv => kv.1 == key)).map Prod.snd

/-- Assignment `rawState[key] = v` to a key that is present: the entry keeps
its key, the value is replaced, the other entries are untouched. -/
def RawState.set (rawState : RawState) (key : String) (v : RawValue) : RawState :=
  rawState.map (fun kv => if kv.1 == key then (kv.1, v) else kv)

/-- The keys of a raw state. -/
def RawState.keys (rawState : RawState) : List String :=
  rawState.map Prod.fst

/-- A locality is a region, not a zone: it has no `/` in it and does not end
in a zone number. -/
def isRegion (locality : List Char) : Bool :=
  !locality.contains '/' &&
    (match locality.getLast? with
     | some c => !c.isDigit
     | none => true)

/-- Modelled from the spec: the identifier rewrite of the load-balancer state
upgrade is not among the sources (only its test is). The spec describes it as a
one-line string rewrite that pads a region into a region+number zone
identifier, from the older `<region>/<uuid>` format to the newer
`<region>-1/<uuid>`: the identifier is cut at its first `/`, `-1` is appended
to the part before it, and the part after it is kept. An identifier without
`/` has no locality and is refused. -/
def regionalToZonedID (element : String) : Except String String :=
  match element.data.span (fun c => c != '/') with
  | (locality, '/' :: id) => .ok (String.mk (locality ++ "-1".data ++ '/' :: id))
  | _ => .error "upgrade: could not retrieve the locality"

/-- Modelled from the spec: `lbUpgradeV1SchemaUpgradeFunc` is not among the
sources (only `TestLbUpgradeV1SchemaUpgradeFunc` is). Following the spec, it is
the version upgrade whose whole work is the string rewrite of the composite
identifier under `"id"`; a state without a string `"id"` cannot be upgraded. -/
def lbUpgradeV1SchemaUpgradeFunc (rawState : RawState) : Except String RawState :=
  match rawState.get "id" with
  | some (.str element) =>
    match regionalToZonedID element with
    | .ok zoned => .ok (rawState.set "id" (.str zoned))
    | .error e => .error e
  | _ => .error "upgrade: id not exist"

/-- The version-0 state of `TestLbUpgradeV1SchemaUpgradeFunc`. -/
def v0Schema : RawState :=
  [("id", .str "fr-par/22c61530-834c-4ab4-aa71-aaaa2ac9d45a")]

/-- The version-1 state `TestLbUpgradeV1SchemaUpgradeFunc` expects. -/
def v1Schema : RawState :=
  [("id", .str "fr-par-1/22c61530-834c-4ab4-aa71-aaaa2ac9d45a")]

/-! ## Cockpit token: schema -/

/-- Kinds of schema values (`schema.ValueType` of the provisioning SDK). -/
inductive ValueType where
  | TypeBool
  | TypeInt
  | TypeFloat
  | TypeString
  | TypeList
  | TypeMap
  | TypeSet
deriving DecidableEq, Repr

/-- A default value written in a schema (`Default: ...`). -/
inductive DefaultValue where
  | bool (b : Bool)
  | string (s : String)
  | int (n : Int)
deriving DecidableEq, Repr

/-- One schema entry (`schema.Schema`), with the attributes the resource
declares; an attribute that is not written has Go's zero value. `Elem`, when
it is not nil, is the nested resource's own schema map. -/
structure Schema where
  Typ : ValueType
  Required : Bool := false
  Optional : Bool := false
  Computed : Bool := false
  ForceNew : Bool := false
  Sensitive : Bool := false
  MinItems : Nat := 0
  MaxItems : Nat := 0
  Default : Option DefaultValue := none
  Description : String := ""
  Elem : Option (List (String × Schema))

/-- The handlers of this file, as they are named in a resource definition. -/
inductive Handler where
  | resourceScalewayCockpitTokenCreate
  | resourceScalewayCockpitTokenRead
  | resourceScalewayCockpitTokenDelete
deriving DecidableEq, Repr

/-- Timeouts of a resource (`schema.ResourceTimeout`), as durations. -/
structure ResourceTimeout where
  Create : Option Nat := none
  Read : Option Nat := none
  Update : Option Nat := none
  Delete : Option Nat := none
  Default : Option Nat := none
deriving DecidableEq, Repr

/-- A resource definition (`schema.Resource`): its handlers, its timeouts and
its schema map, as the list of its entries. -/
structure Resource where
  CreateContext : Option Handler := none
  ReadContext : Option Handler := none
  UpdateContext : Option Handler := none
  DeleteContext : Option Handler := none
  Timeouts : Option ResourceTimeout := none
  Schema : List (String × Schema) := []

/-- The schema map of the `scopes` block (the `Elem` of `"scopes"`). -/
def cockpitTokenScopesElem : List (String × Schema) :=
  [ ("query_metrics",
      { Typ := .TypeBool, Optional := true, Default := some (.bool false), ForceNew := true,
        Description := "Query metrics", Elem := none }),
    ("write_metrics",
      { Typ := .TypeBool, Optional := true, Default := some (.bool true), ForceNew := true,
        Description := "Write metrics", Elem := none }),
    ("setup_metrics_rules",
      { Typ := .TypeBool, Optional := true, Default := some (.bool false), ForceNew := true,
        Description := "Setup metrics rules", Elem := none }),
    ("query_logs",
      { Typ := .TypeBool, Optional := true, Default := some (.bool false), ForceNew := true,
        Description := "Query logs", Elem := none }),
    ("write_logs",
      { Typ := .TypeBool, Optional := true, Default := some (.bool true), ForceNew := true,
        Description := "Write logs", Elem := none }),
    ("setup_logs_rules",
      { Typ := .TypeBool, Optional := true, Default := some (.bool false), ForceNew := true,
        Description := "Setup logs rules", Elem := none }),
    ("setup_alerts",
      { Typ := .TypeBool, Optional := true, Default := some (.bool false), ForceNew := true,
        Description := "Setup alerts", Elem := none }) ]

/-- The resource definition `resourceScalewayCockpitToken()`. The constant
`defaultCockpitTimeout` and the helper `projectIDSchema()` are declared
elsewhere in the repository and are taken as parameters. -/
def resourceScalewayCockpitToken (defaultCockpitTimeout : Nat) (projectIDSchema : Schema) :
    Resource :=
  { CreateContext := some .resourceScalewayCockpitTokenCreate
    ReadContext := some .resourceScalewayCockpitTokenRead
    DeleteContext := some .resourceScalewayCockpitTokenDelete
    Timeouts := some
      { Create := some defaultCockpitTimeout
        Read := some defaultCockpitTimeout
        Delete := some defaultCockpitTimeout
        Default := some defaultCockpitTimeout }
    Schema :=
      [ ("name",
          { Typ := .TypeString, Required := true, ForceNew := true,
            Description := "The name of the token", Elem := none }),
        ("scopes",
          { Typ := .TypeList, Optional := true, ForceNew := true, MinItems := 1, MaxItems := 1,
            Description := "Endpoints", Elem := some cockpitTokenScopesElem }),
        ("secret_key",
          { Typ := .TypeString, Computed := true, Description := "The secret key of the token",
            Sensitive := true, Elem := none }),
        ("project_id", projectIDSchema) ] }

/-- The schema entry of a resource under a field name. -/
def Resource.field (r : Resource) (name : String) : Option Scaleway.Schema :=
  (r.Schema.find? (fun kv => kv.1 == name)).map Prod.snd

/-- The entries of the nested block of a field, empty when it has none. -/
def Schema.elemFields (s : Schema) : List (String × Schema) :=
  s.Elem.getD []

/-! ## Cockpit token: vendor SDK values -/

/-- A Go `error`: the message `err.Error()` gives and, for an error that is a
vendor HTTP response, its status code. -/
structure GoError where
  message : String
  statusCode : Option Nat := none
deriving DecidableEq, Repr

/-- Severity of a diagnostic (`diag.Severity`). -/
inductive Severity where
  | Error
  | Warning
deriving DecidableEq, Repr

/-- One diagnostic (`diag.Diagnostic`). -/
structure Diagnostic where
  Severity : Severity
  Summary : String
  Detail : String := ""
deriving DecidableEq, Repr

/-- The result of a handler (`diag.Diagnostics`); Go's `nil` is the empty list. -/
abbrev Diagnostics := List Diagnostic

/-- The SDK's `diag.FromErr` on a non-nil error: one error diagnostic whose
summary is the error's message. -/
def FromErr (err : GoError) : Diagnostics :=
  [{ Severity := .Error, Summary := err.message }]

/-- Scopes of a token in the vendor SDK (`cockpit.TokenScopes`). -/
structure TokenScopes where
  QueryMetrics : Bool
  WriteMetrics : Bool
  SetupMetricsRules : Bool
  QueryLogs : Bool
  WriteLogs : Bool
  SetupLogsRules : Bool
  SetupAlerts : Bool
deriving DecidableEq, Repr

/-- A token as the vendor returns it (`cockpit.Token`), with the fields the
handlers read; `Scopes` and `SecretKey` are pointers and may be nil. -/
structure Token where
  ID : String
  ProjectID : String
  Name : String
  Scopes : Option TokenScopes
  SecretKey : Option String
deriving DecidableEq, Repr

/-- The request `cockpit.CreateTokenRequest` as the create handler fills it. -/
structure CreateTokenRequest where
  Name : String
  Scopes : Option TokenScopes
  ProjectID : String
deriving DecidableEq, Repr

/-- The request `cockpit.GetTokenRequest`. -/
structure GetTokenRequest where
  TokenID : String
deriving DecidableEq, Repr

/-- The request `cockpit.DeleteTokenRequest`. -/
structure DeleteTokenRequest where
  TokenID : String
deriving DecidableEq, Repr

/-- The cockpit API client: each vendor call takes its request and the
vendor's state and gives its result and the vendor's next state. -/
structure API (σ : Type) where
  CreateToken : CreateTokenRequest → σ → Except GoError Token × σ
  GetToken : GetTokenRequest → σ → Except GoError Token × σ
  DeleteToken : DeleteTokenRequest → σ → Option GoError × σ

/-- One vendor call issued by a handler: its request and the error it
returned (`none` for a call that succeeded). -/
inductive Call where
  | CreateToken (req : CreateTokenRequest) (err : Option GoError)
  | GetToken (req : GetTokenRequest) (err : Option GoError)
  | DeleteToken (req : DeleteTokenRequest) (err : Option GoError)
deriving DecidableEq, Repr

/-- The error a vendor call returned. -/
def Call.err : Call → Option GoError
  | .CreateToken _ e => e
  | .GetToken _ e => e
  | .DeleteToken _ e => e

/-- Is the call a `CreateToken`? -/
def Call.isCreateToken : Call → Bool
  | .CreateToken _ _ => true
  | _ => false

/-- Is the call a `GetToken`? -/
def Call.isGetToken : Call → Bool
  | .GetToken _ _ => true
  | _ => false

/-- Is the call a `DeleteToken`? -/
def Call.isDeleteToken : Call → Bool
  | .DeleteToken _ _ => true
  | _ => false

/-! ## Cockpit token: resource data -/

/-- One `scopes` block of the configuration or state, with the seven fields
of the schema. -/
structure ScopesBlock where
  query_metrics : Bool
  write_metrics : Bool
  setup_metrics_rules : Bool
  query_logs : Bool
  write_logs : Bool
  setup_logs_rules : Bool
  setup_alerts : Bool
deriving DecidableEq, Repr

/-- The resource data `d` of a handler (`schema.ResourceData`): the resource
id and the value of each field of the schema, as `d.Get` reads it and `d.Set`
writes it. `secret_key` is unset (`none`) or a string. -/
structure ResourceData where
  id : String
  name : String
  scopes : List ScopesBlock
  project_id : String
  secret_key : Option String
deriving DecidableEq, Repr

/-- A field name together with a value for it: the two arguments of `d.Set`. -/
inductive FieldValue where
  | name (v : String)
  | scopes (v : List ScopesBlock)
  | project_id (v : String)
  | secret_key (v : Option String)
deriving DecidableEq, Repr

/-- The write `d.Set(key, value)`. The values are well typed for their fields,
so the write goes through; the handlers discard its error. -/
def ResourceData.Set (d : ResourceData) : FieldValue → ResourceData
  | .name v => { d with name := v }
  | .scopes v => { d with scopes := v }
  | .project_id v => { d with project_id := v }
  | .secret_key v => { d with secret_key := v }

/-- The write `d.SetId(v)`. -/
def ResourceData.SetId (d : ResourceData) (v : String) : ResourceData :=
  { d with id := v }

/-- The read `d.Id()`. -/
def ResourceData.Id (d : ResourceData) : String :=
  d.id

/-- Helpers of the repository that the handlers call and that are declared
outside this file: `cockpitAPI` (the API client of the provider meta, or an
error), `is404Error` (the not-found classification of an error) and the two
translations of scopes between schema and SDK shape. -/
structure Helpers (Meta σ : Type) where
  cockpitAPI : Meta → Except GoError (API σ)
  is404Error : GoError → Bool
  expandCockpitTokenScopes : List ScopesBlock → Option TokenScopes
  flattenCockpitTokenScopes : Option TokenScopes → List ScopesBlock

/-- What a handler leaves behind: the diagnostics it returns, the resource
data, the vendor's state, and the vendor calls it issued, in order. -/
structure Outcome (σ : Type) where
  diags : Diagnostics
  d : ResourceData
  vendor : σ
  calls : List Call

/-! ## Cockpit token: handlers -/

/-- The handler `resourceScalewayCockpitTokenRead`. -/
def resourceScalewayCockpitTokenRead {Meta σ : Type} (h : Helpers Meta σ)
    (d : ResourceData) (meta : Meta) (s : σ) : Outcome σ :=
  match h.cockpitAPI meta with
  | .error err => { diags := FromErr err, d := d, vendor := s, calls := [] }
  | .ok api =>
    let req : GetTokenRequest := { TokenID := d.Id }
    match api.GetToken req s with
    | (.error err, s1) =>
      if h.is404Error err then
        { diags := [], d := d.SetId "", vendor := s1, calls := [.GetToken req (some err)] }
      else
        { diags := FromErr err, d := d, vendor := s1, calls := [.GetToken req (some err)] }
    | (.ok res, s1) =>
      let d1 := d.Set (.name res.Name)
      let d2 := d1.Set (.scopes (h.flattenCockpitTokenScopes res.Scopes))
      let d3 := d2.Set (.project_id res.ProjectID)
      { diags := [], d := d3, vendor := s1, calls := [.GetToken req none] }

/-- The handler `resourceScalewayCockpitTokenCreate`; it ends in a call of the
read handler, whose vendor calls follow its own. -/
def resourceScalewayCockpitTokenCreate {Meta σ : Type} (h : Helpers Meta σ)
    (d : ResourceData) (meta : Meta) (s : σ) : Outcome σ :=
  match h.cockpitAPI meta with
  | .error err => { diags := FromErr err, d := d, vendor := s, calls := [] }
  | .ok api =>
    let projectID := d.project_id
    let name := d.name
    let scopes := h.expandCockpitTokenScopes d.scopes
    let req : CreateTokenRequest := { Name := name, Scopes := scopes, ProjectID := projectID }
    match api.CreateToken req s with
    | (.error err, s1) =>
      { diags := FromErr err, d := d, vendor := s1, calls := [.CreateToken req (some err)] }
    | (.ok res, s1) =>
      let d1 := d.Set (.secret_key res.SecretKey)
      let d2 := d1.SetId res.ID
      let r := resourceScalewayCockpitTokenRead h d2 meta s1
      { r with calls := .CreateToken req none :: r.calls }

/-- The handler `resourceScalewayCockpitTokenDelete`. -/
def resourceScalewayCockpitTokenDelete {Meta σ : Type} (h : Helpers Meta σ)
    (d : ResourceData) (meta : Meta) (s : σ) : Outcome σ :=
  match h.cockpitAPI meta with
  | .error err => { diags := FromErr err, d := d, vendor := s, calls := [] }
  | .ok api =>
    let req : DeleteTokenRequest := { TokenID := d.Id }
    match api.DeleteToken req s with
    | (some err, s1) =>
      { diags := FromErr err, d := d, vendor := s1, calls := [.DeleteToken req (some err)] }
    | (none, s1) =>
      { diags := [], d := d, vendor := s1, calls := [.DeleteToken req none] }

/-! ## An in-memory vendor, to run the handlers on concrete inputs -/

/-- The error of the in-memory vendor for a token it does not hold: an HTTP
response with status 404. -/
def tokenNotFound : GoError :=
  { message := "scaleway-sdk-go: http error 404 Not Found: token not found",
    statusCode := some 404 }

/-- An error of the in-memory vendor that is not a not-found error. -/
def permissionDenied : GoError :=
  { message := "scaleway-sdk-go: http error 403 Forbidden: insufficient permissions",
    statusCode := some 403 }

/-- An in-memory vendor: its state is the list of the tokens it holds. It
refuses to create a token with an empty name, gives the secret key only in the
response of the creation, and answers 404 for a token it does not hold. -/
def memoryAPI : API (List Token) where
  CreateToken req tokens :=
    if req.Name = "" then (.error permissionDenied, tokens)
    else
      let t : Token :=
        { ID := "id-of-" ++ req.Name, ProjectID := req.ProjectID, Name := req.Name,
          Scopes := req.Scopes, SecretKey := none }
      (.ok { t with SecretKey := some ("secret-of-" ++ req.Name) }, t :: tokens)
  GetToken req tokens :=
    match tokens.find? (fun t => t.ID == req.TokenID) with
    | some t => (.ok t, tokens)
    | none => (.error tokenNotFound, tokens)
  DeleteToken req tokens :=
    if tokens.any (fun t => t.ID == req.TokenID) then
      (none, tokens.filter (fun t => t.ID != req.TokenID))
    else (some tokenNotFound, tokens)

/-- Helpers over the in-memory vendor: the meta is a flag telling whether it
carries an API client, an error is not-found when its status code is 404, and
scopes are translated field by field. -/
def memoryHelpers : Helpers Bool (List Token) where
  cockpitAPI meta :=
    if meta then .ok memoryAPI else .error { message := "meta: unexpected type" }
  is404Error err := err.statusCode == some 404
  expandCockpitTokenScopes blocks :=
    blocks.head?.map (fun b =>
      { QueryMetrics := b.query_metrics, WriteMetrics := b.write_metrics,
        SetupMetricsRules := b.setup_metrics_rules, QueryLogs := b.query_logs,
        WriteLogs := b.write_logs, SetupLogsRules := b.setup_logs_rules,
        SetupAlerts := b.setup_alerts })
  flattenCockpitTokenScopes scopes :=
    match scopes with
    | none => []
    | some sc =>
      [{ query_metrics := sc.QueryMetrics, write_metrics := sc.WriteMetrics,
         setup_metrics_rules := sc.SetupMetricsRules, query_logs := sc.QueryLogs,
         write_logs := sc.WriteLogs, setup_logs_rules := sc.SetupLogsRules,
         setup_alerts := sc.SetupAlerts }]

/-- A scopes block with the defaults of the schema. -/
def defaultScopes : ScopesBlock :=
  { query_metrics := false, write_metrics := true, setup_metrics_rules := false,
    query_logs := false, write_logs := true, setup_logs_rules := false,
    setup_alerts := false }

/-- The resource data of a planned token `my-token`: configuration only, no id
and no secret key yet. -/
def plannedToken : ResourceData :=
  { id := "", name := "my-token", scopes := [defaultScopes], project_id := "project-1",
    secret_key := none }

/-- The resource data of the token `my-token` once created. -/
def createdToken : ResourceData :=
  { id := "id-of-my-token", name := "my-token", scopes := [defaultScopes],
    project_id := "project-1", secret_key := some "secret-of-my-token" }

/-- The token `my-token` as the in-memory vendor holds it. -/
def heldToken : Token :=
  { ID := "id-of-my-token", ProjectID := "project-1", Name := "my-token",
    Scopes := some
      { QueryMetrics := false, WriteMetrics := true, SetupMetricsRules := false,
        QueryLogs := false, WriteLogs := true, SetupLogsRules := false, SetupAlerts := false },
    SecretKey := none }

/-- A vendor that lags behind its own writes: it creates a token as the
in-memory vendor does but does not hold it yet, so the `GetToken` that follows
answers 404. -/
def laggingAPI : API (List Token) where
  CreateToken req tokens := ((memoryAPI.CreateToken req tokens).1, tokens)
  GetToken := memoryAPI.GetToken
  DeleteToken := memoryAPI.DeleteToken

/-- Helpers over the lagging vendor. -/
def laggingHelpers : Helpers Bool (List Token) :=
  { memoryHelpers with cockpitAPI := fun _ => .ok laggingAPI }

/-- A vendor that refuses every call of a client without permissions: each
call answers 403 and holds nothing. -/
def forbiddenAPI : API (List Token) where
  CreateToken _ tokens := (.error permissionDenied, tokens)
  GetToken _ tokens := (.error permissionDenied, tokens)
  DeleteToken _ tokens := (some permissionDenied, tokens)

/-- Helpers over the vendor that refuses every call. -/
def forbiddenHelpers : Helpers Bool (List Token) :=
  { memoryHelpers with cockpitAPI := fun _ => .ok forbiddenAPI }

/-- A vendor whose client may write but not read: tokens are created and
deleted as by the in-memory vendor, and `GetToken` answers 403. -/
def unreadableAPI : API (List Token) where
  CreateToken := memoryAPI.CreateToken
  GetToken _ tokens := (.error permissionDenied, tokens)
  DeleteToken := memoryAPI.DeleteToken

/-- Helpers over the vendor that may write but not read. -/
def unreadableHelpers : Helpers Bool (List Token) :=
  { memoryHelpers with cockpitAPI := fun _ => .ok unreadableAPI }

/-! ## Test helpers: what a test function leaves behind -/

/-- What a sweeper callback or a destroy check leaves behind: the error it
returns (`none` for `nil`), the vendor's state, and the vendor calls it
issued, in order. -/
structure Run (σ C : Type) where
  err : Option GoError
  vendor : σ
  calls : List C

/-- One resource of a module state (`terraform.ResourceState`): its type and
the id of its primary instance (`rs.Primary.ID`). -/
structure ResourceState where
  Typ : String
  PrimaryID : String
deriving DecidableEq, Repr

/-- The resources of the root module (`state.RootModule().Resources`), in the
order in which the `range` over the map visits them. -/
abbrev RootResources := List ResourceState

/-! ## Load balancer: sweeper and destroy check (`resource_lb_test.go`) -/

/-- A zone of the vendor (`scw.Zone`), a string. -/
abbrev Zone := String

/-- The SDK constant `scw.ZoneFrPar1`. -/
def ZoneFrPar1 : Zone := "fr-par-1"

/-- The SDK constant `scw.ZoneNlAms1`. -/
def ZoneNlAms1 : Zone := "nl-ams-1"

/-- The SDK constant `scw.ZonePlWaw1`. -/
def ZonePlWaw1 : Zone := "pl-waw-1"

/-- A load balancer as the vendor returns it (`lbSDK.LB`); the tests read its
`ID` only. -/
structure LB where
  ID : String
deriving DecidableEq, Repr

/-- The request `lbSDK.ZonedAPIListLBsRequest` as the sweeper fills it. -/
structure ZonedAPIListLBsRequest where
  Zone : Zone
deriving DecidableEq, Repr

/-- The response of `ListLBs`, with all pages gathered. -/
structure ListLBsResponse where
  LBs : List LB
deriving DecidableEq, Repr

/-- The request `lbSDK.ZonedAPIWaitForLBInstancesRequest` as the sweeper fills
it. -/
structure ZonedAPIWaitForLBInstancesRequest where
  Zone : Zone
  LBID : String
  Timeout : Option Nat
  RetryInterval : Option Nat
deriving DecidableEq, Repr

/-- The request `lbSDK.ZonedAPIDeleteLBRequest`. -/
structure ZonedAPIDeleteLBRequest where
  LBID : String
  ReleaseIP : Bool
  Zone : Zone
deriving DecidableEq, Repr

/-- The request `lbSDK.ZonedAPIGetLBRequest`. -/
structure ZonedAPIGetLBRequest where
  Zone : Zone
  LBID : String
deriving DecidableEq, Repr

/-- The zoned load-balancer API client (`lbSDK.ZonedAPI`), with the calls the
tests issue. -/
structure ZonedAPI (σ : Type) where
  ListLBs : ZonedAPIListLBsRequest → σ → Except GoError ListLBsResponse × σ
  WaitForLbInstances : ZonedAPIWaitForLBInstancesRequest → σ → Except GoError LB × σ
  DeleteLB : ZonedAPIDeleteLBRequest → σ → Option GoError × σ
  GetLB : ZonedAPIGetLBRequest → σ → Except GoError LB × σ

/-- One load-balancer vendor call: its request and the error it returned. -/
inductive LBCall where
  | ListLBs (req : ZonedAPIListLBsRequest) (err : Option GoError)
  | WaitForLbInstances (req : ZonedAPIWaitForLBInstancesRequest) (err : Option GoError)
  | DeleteLB (req : ZonedAPIDeleteLBRequest) (err : Option GoError)
  | GetLB (req : ZonedAPIGetLBRequest) (err : Option GoError)
deriving DecidableEq, Repr

/-- The error a load-balancer vendor call returned. -/
def LBCall.err : LBCall → Option GoError
  | .ListLBs _ e => e
  | .WaitForLbInstances _ e => e
  | .DeleteLB _ e => e
  | .GetLB _ e => e

/-- What `testSweepLB` takes from outside this file: the SDK constructor
`lbSDK.NewZonedAPI`, and the package's `defaultWaitLBRetryInterval`,
`DefaultWaitRetryInterval` (a pointer, possibly nil) and
`defaultInstanceServerWaitTimeout`. -/
structure SweepLBEnv (Client σ : Type) where
  NewZonedAPI : Client → ZonedAPI σ
  defaultWaitLBRetryInterval : Nat
  DefaultWaitRetryInterval : Option Nat
  defaultInstanceServerWaitTimeout : Nat

/-- The loop `for _, l := range listLBs.LBs` of the callback of `testSweepLB`:
wait for the instances of each load balancer, then delete it; the first error
ends the loop and is returned, wrapped. -/
def testSweepLBLoop {Client σ : Type} (env : SweepLBEnv Client σ) (lbAPI : ZonedAPI σ)
    (zone : Zone) : List LB → σ → Run σ LBCall
  | [], s => { err := none, vendor := s, calls := [] }
  | l :: rest, s =>
    let retryInterval :=
      match env.DefaultWaitRetryInterval with
      | some v => v
      | none => env.defaultWaitLBRetryInterval
    let wreq : ZonedAPIWaitForLBInstancesRequest :=
      { Zone := zone, LBID := l.ID, Timeout := some env.defaultInstanceServerWaitTimeout,
        RetryInterval := some retryInterval }
    match lbAPI.WaitForLbInstances wreq s with
    | (.error err, s1) =>
      { err := some { message := "error waiting for lb in sweeper: " ++ err.message },
        vendor := s1, calls := [.WaitForLbInstances wreq (some err)] }
    | (.ok _, s1) =>
      let dreq : ZonedAPIDeleteLBRequest := { LBID := l.ID, ReleaseIP := true, Zone := zone }
      match lbAPI.DeleteLB dreq s1 with
      | (some err, s2) =>
        { err := some { message := "error deleting lb in sweeper: " ++ err.message },
          vendor := s2, calls := [.WaitForLbInstances wreq none, .DeleteLB dreq (some err)] }
      | (none, s2) =>
        let r := testSweepLBLoop env lbAPI zone rest s2
        { r with calls := .WaitForLbInstances wreq none :: .DeleteLB dreq none :: r.calls }

/-- The callback `testSweepLB` hands to `sweepZones`: list the load balancers
of the zone, then run the loop over them. -/
def testSweepLBCallback {Client σ : Type} (env : SweepLBEnv Client σ) (scwClient : Client)
    (zone : Zone) (s : σ) : Run σ LBCall :=
  let lbAPI := env.NewZonedAPI scwClient
  let lreq : ZonedAPIListLBsRequest := { Zone := zone }
  match lbAPI.ListLBs lreq s with
  | (.error err, s1) =>
    { err := some
        { message := "error listing lbs in (" ++ zone ++ ") in sweeper: " ++ err.message },
      vendor := s1, calls := [.ListLBs lreq (some err)] }
  | (.ok listLBs, s1) =>
    let r := testSweepLBLoop env lbAPI zone listLBs.LBs s1
    { r with calls := .ListLBs lreq none :: r.calls }

/-- The sweeper `testSweepLB`. The helper `sweepZones`, declared elsewhere in
the repository, is taken as a parameter: it receives the zones and the
callback. The string argument of the sweeper is ignored. -/
def testSweepLB {Client σ R : Type} (env : SweepLBEnv Client σ)
    (sweepZones : List Zone → (Client → Zone → σ → Run σ LBCall) → R) (_region : String) : R :=
  sweepZones [ZoneFrPar1, ZoneNlAms1, ZonePlWaw1] (testSweepLBCallback env)

/-- The calls the sweeper issues for one load balancer when both succeed: the
wait, then the deletion. -/
def sweptLBCalls {Client σ : Type} (env : SweepLBEnv Client σ) (zone : Zone) (l : LB) :
    List LBCall :=
  [ .WaitForLbInstances
      { Zone := zone, LBID := l.ID, Timeout := some env.defaultInstanceServerWaitTimeout,
        RetryInterval := some (env.DefaultWaitRetryInterval.getD env.defaultWaitLBRetryInterval) }
      none,
    .DeleteLB { LBID := l.ID, ReleaseIP := true, Zone := zone } none ]

/-- The test tools `tt`, of which the destroy check reads `tt.Meta`. -/
structure TestTools (M : Type) where
  Meta : M

/-- Helpers of the repository that `testAccCheckScalewayLbDestroy` calls and
that are declared outside this file: `lbAPIWithZoneAndID` (the API client, the
zone and the id that a meta and a resource id resolve to, or an error) and
`is404Error`. -/
structure LbCheckEnv (M σ : Type) where
  lbAPIWithZoneAndID : M → String → Except GoError (ZonedAPI σ × Zone × String)
  is404Error : GoError → Bool

/-- The check `testAccCheckScalewayLbDestroy(tt)` run on the resources of the
root module: resources of another type are skipped; for a load balancer the id
is resolved and `GetLB` is called; the check goes on to the next resource only
when that call fails with a not-found error. -/
def testAccCheckScalewayLbDestroy {M σ : Type} (env : LbCheckEnv M σ) (tt : TestTools M) :
    RootResources → σ → Run σ LBCall
  | [], s => { err := none, vendor := s, calls := [] }
  | rs :: rest, s =>
    if rs.Typ != "scaleway_lb" then
      testAccCheckScalewayLbDestroy env tt rest s
    else
      match env.lbAPIWithZoneAndID tt.Meta rs.PrimaryID with
      | .error err => { err := some err, vendor := s, calls := [] }
      | .ok (lbAPI, zone, ID) =>
        let req : ZonedAPIGetLBRequest := { Zone := zone, LBID := ID }
        match lbAPI.GetLB req s with
        | (.ok _, s1) =>
          { err := some { message := "load Balancer (" ++ rs.PrimaryID ++ ") still exists" },
            vendor := s1, calls := [.GetLB req none] }
        | (.error err, s1) =>
          if !env.is404Error err then
            { err := some err, vendor := s1, calls := [.GetLB req (some err)] }
          else
            let r := testAccCheckScalewayLbDestroy env tt rest s1
            { r with calls := .GetLB req (some err) :: r.calls }

/-- The property of C15 for the load-balancer check, read off a run `r` of it
on `resources`. -/
def LbDestroyChecked {M σ : Type} (env : LbCheckEnv M σ) (tt : TestTools M)
    (resources : RootResources) (r : Run σ LBCall) : Prop :=
  (r.err = none ↔
    (∀ rs ∈ resources.filter (fun rs => rs.Typ == "scaleway_lb"),
        ∃ v, env.lbAPIWithZoneAndID tt.Meta rs.PrimaryID = .ok v) ∧
    r.calls.length = (resources.filter (fun rs => rs.Typ == "scaleway_lb")).length ∧
    ∀ c ∈ r.calls, ∃ e, c.err = some e ∧ env.is404Error e = true) ∧
  (∀ c ∈ r.calls, ∃ rs ∈ resources, rs.Typ = "scaleway_lb" ∧
    ∃ lbAPI zone ID, env.lbAPIWithZoneAndID tt.Meta rs.PrimaryID = .ok (lbAPI, zone, ID) ∧
      c = .GetLB { Zone := zone, LBID := ID } c.err ∧
      (c.err = none →
        r.err = some { message := "load Balancer (" ++ rs.PrimaryID ++ ") still exists" })) ∧
  (∀ c ∈ r.calls, ∀ e, c.err = some e → env.is404Error e = false → r.err = some e)

/-- Stated from the claim, for the load-balancer check: every resource of the
list is gone. Visited in order from the vendor state `s`, the id of each
resolves, and the `GetLB` on the zone and id it resolves to fails with an
error classified as not found; `s'` is the vendor state after the last of
these queries. -/
def LbAllGone {M σ : Type} (env : LbCheckEnv M σ) (tt : TestTools M) :
    List ResourceState → σ → σ → Prop
  | [], s, s' => s' = s
  | rs :: rest, s, s' =>
    ∃ lbAPI zone ID e s1,
      env.lbAPIWithZoneAndID tt.Meta rs.PrimaryID = .ok (lbAPI, zone, ID) ∧
      lbAPI.GetLB { Zone := zone, LBID := ID } s = (.error e, s1) ∧
      env.is404Error e = true ∧
      LbAllGone env tt rest s1 s'

/-! ## Bare-metal server: sweeper and destroy check (`resource_baremetal_server_test.go`) -/

/-- A bare-metal server as the vendor returns it (`baremetal.Server`); the
tests read its `ID` only. -/
structure Server where
  ID : String
deriving DecidableEq, Repr

/-- The request `baremetal.ListServersRequest`, which the sweeper leaves
empty. -/
structure ListServersRequest where
deriving DecidableEq, Repr

/-- The response of `ListServers`, with all pages gathered. -/
structure ListServersResponse where
  Servers : List Server
deriving DecidableEq, Repr

/-- The request `baremetal.DeleteServerRequest` as the sweeper fills it. -/
structure DeleteServerRequest where
  ServerID : String
deriving DecidableEq, Repr

/-- The request `baremetal.GetServerRequest`. -/
structure GetServerRequest where
  ServerID : String
  Zone : Zone
deriving DecidableEq, Repr

/-- A zone together with an id (`ZonedID`). -/
structure ZonedID where
  ID : String
  Zone : Zone
deriving DecidableEq, Repr

/-- The bare-metal API client (`baremetal.API`), with the calls the tests
issue. -/
structure BaremetalAPI (σ : Type) where
  ListServers : ListServersRequest → σ → Except GoError ListServersResponse × σ
  DeleteServer : DeleteServerRequest → σ → Except GoError Server × σ
  GetServer : GetServerRequest → σ → Except GoError Server × σ

/-- One bare-metal vendor call: its request and the error it returned. -/
inductive BaremetalCall where
  | ListServers (req : ListServersRequest) (err : Option GoError)
  | DeleteServer (req : DeleteServerRequest) (err : Option GoError)
  | GetServer (req : GetServerRequest) (err : Option GoError)
deriving DecidableEq, Repr

/-- The error a bare-metal vendor call returned. -/
def BaremetalCall.err : BaremetalCall → Option GoError
  | .ListServers _ e => e
  | .DeleteServer _ e => e
  | .GetServer _ e => e

/-- The loop `for _, server := range listServers.Servers` of the callback of
`testSweepBaremetalServer`: delete each server; the first error ends the loop
and is returned, wrapped. -/
def testSweepBaremetalServerLoop {σ : Type} (baremetalAPI : BaremetalAPI σ) :
    List Server → σ → Run σ BaremetalCall
  | [], s => { err := none, vendor := s, calls := [] }
  | server :: rest, s =>
    let req : DeleteServerRequest := { ServerID := server.ID }
    match baremetalAPI.DeleteServer req s with
    | (.error err, s1) =>
      { err := some { message := "error deleting server in sweeper: " ++ err.message },
        vendor := s1, calls := [.DeleteServer req (some err)] }
    | (.ok _, s1) =>
      let r := testSweepBaremetalServerLoop baremetalAPI rest s1
      { r with calls := .DeleteServer req none :: r.calls }

/-- The callback `testSweepBaremetalServer` hands to `sweepZones`, with the SDK
constructor `baremetal.NewAPI` as a parameter. The default zone of the client
is read for the log messages only. A failed listing is logged as a warning and
the callback returns nil. -/
def testSweepBaremetalServerCallback {Client σ : Type} (NewAPI : Client → BaremetalAPI σ)
    (scwClient : Client) (s : σ) : Run σ BaremetalCall :=
  let baremetalAPI := NewAPI scwClient
  let req : ListServersRequest := {}
  match baremetalAPI.ListServers req s with
  | (.error err, s1) => { err := none, vendor := s1, calls := [.ListServers req (some err)] }
  | (.ok listServers, s1) =>
    let r := testSweepBaremetalServerLoop baremetalAPI listServers.Servers s1
    { r with calls := .ListServers req none :: r.calls }

/-- The sweeper `testSweepBaremetalServer`. The helper `sweepZones`, declared
elsewhere in the repository, is taken as a parameter: it receives the region
and the callback. -/
def testSweepBaremetalServer {Client σ R : Type} (NewAPI : Client → BaremetalAPI σ)
    (sweepZones : String → (Client → σ → Run σ BaremetalCall) → R) (region : String) : R :=
  sweepZones region (testSweepBaremetalServerCallback NewAPI)

/-- What `testAccCheckScalewayBaremetalServerDestroy` takes from outside this
file: the meta of the test provider (`testAccProvider.Meta()`), the helper
`baremetalAPIWithZoneAndID` (the API client and the zoned id that a meta and a
resource id resolve to, or an error) and `is404Error`. -/
structure BaremetalCheckEnv (M σ : Type) where
  testAccProviderMeta : M
  baremetalAPIWithZoneAndID : M → String → Except GoError (BaremetalAPI σ × ZonedID)
  is404Error : GoError → Bool

/-- The check `testAccCheckScalewayBaremetalServerDestroy` run on the resources
of the root module: resources of another type are skipped; for a bare-metal
server the id is resolved and `GetServer` is called; the check goes on to the
next resource only when that call fails with a not-found error. -/
def testAccCheckScalewayBaremetalServerDestroy {M σ : Type} (env : BaremetalCheckEnv M σ) :
    RootResources → σ → Run σ BaremetalCall
  | [], s => { err := none, vendor := s, calls := [] }
  | rs :: rest, s =>
    if rs.Typ != "scaleway_baremetal_server" then
      testAccCheckScalewayBaremetalServerDestroy env rest s
    else
      match env.baremetalAPIWithZoneAndID env.testAccProviderMeta rs.PrimaryID with
      | .error err => { err := some err, vendor := s, calls := [] }
      | .ok (baremetalAPI, zonedId) =>
        let req : GetServerRequest := { ServerID := zonedId.ID, Zone := zonedId.Zone }
        match baremetalAPI.GetServer req s with
        | (.ok _, s1) =>
          { err := some { message := "server (" ++ rs.PrimaryID ++ ") still exists" },
            vendor := s1, calls := [.GetServer req none] }
        | (.error err, s1) =>
          if !env.is404Error err then
            { err := some err, vendor := s1, calls := [.GetServer req (some err)] }
          else
            let r := testAccCheckScalewayBaremetalServerDestroy env rest s1
            { r with calls := .GetServer req (some err) :: r.calls }

/-- The property of C15 for the bare-metal check, read off a run `r` of it on
`resources`. -/
def BaremetalDestroyChecked {M σ : Type} (env : BaremetalCheckEnv M σ)
    (resources : RootResources) (r : Run σ BaremetalCall) : Prop :=
  (r.err = none ↔
    (∀ rs ∈ resources.filter (fun rs => rs.Typ == "scaleway_baremetal_server"),
        ∃ v, env.baremetalAPIWithZoneAndID env.testAccProviderMeta rs.PrimaryID = .ok v) ∧
    r.calls.length
      = (resources.filter (fun rs => rs.Typ == "scaleway_baremetal_server")).length ∧
    ∀ c ∈ r.calls, ∃ e, c.err = some e ∧ env.is404Error e = true) ∧
  (∀ c ∈ r.calls, ∃ rs ∈ resources, rs.Typ = "scaleway_baremetal_server" ∧
    ∃ baremetalAPI zonedId,
      env.baremetalAPIWithZoneAndID env.testAccProviderMeta rs.PrimaryID
        = .ok (baremetalAPI, zonedId) ∧
      c = .GetServer { ServerID := zonedId.ID, Zone := zonedId.Zone } c.err ∧
      (c.err = none →
        r.err = some { message := "server (" ++ rs.PrimaryID ++ ") still exists" })) ∧
  (∀ c ∈ r.calls, ∀ e, c.err = some e → env.is404Error e = false → r.err = some e)

/-- Stated from the claim, for the bare-metal check: every resource of the
list is gone. Visited in order from the vendor state `s`, the id of each
resolves, and the `GetServer` on the zoned id it resolves to fails with an
error classified as not found; `s'` is the vendor state after the last of
these queries. -/
def BaremetalAllGone {M σ : Type} (env : BaremetalCheckEnv M σ) :
    List ResourceState → σ → σ → Prop
  | [], s, s' => s' = s
  | rs :: rest, s, s' =>
    ∃ baremetalAPI zonedId e s1,
      env.baremetalAPIWithZoneAndID env.testAccProviderMeta rs.PrimaryID
        = .ok (baremetalAPI, zonedId) ∧
      baremetalAPI.GetServer { ServerID := zonedId.ID, Zone := zonedId.Zone } s
        = (.error e, s1) ∧
      env.is404Error e = true ∧
      BaremetalAllGone env rest s1 s'

/-- The error of the in-memory load-balancer and bare-metal vendors for a
resource they do not hold: an HTTP response with status 404. -/
def resourceNotFound : GoError :=
  { message := "scaleway-sdk-go: http error 404 Not Found: resource not found",
    statusCode := some 404 }

/-- An in-memory load-balancer vendor: its state is the list of the load
balancers it holds, each with its zone; it answers 404 for one it does not
hold. -/
def memoryZonedAPI : ZonedAPI (List (Zone × LB)) where
  ListLBs req held :=
    (.ok { LBs := (held.filter (fun e => e.1 == req.Zone)).map Prod.snd }, held)
  WaitForLbInstances req held :=
    match held.find? (fun e => e.1 == req.Zone && e.2.ID == req.LBID) with
    | some e => (.ok e.2, held)
    | none => (.error resourceNotFound, held)
  DeleteLB req held :=
    if held.any (fun e => e.1 == req.Zone && e.2.ID == req.LBID) then
      (none, held.filter (fun e => !(e.1 == req.Zone && e.2.ID == req.LBID)))
    else (some resourceNotFound, held)
  GetLB req held :=
    match held.find? (fun e => e.1 == req.Zone && e.2.ID == req.LBID) with
    | some e => (.ok e.2, held)
    | none => (.error resourceNotFound, held)

/-- The sweeper's surroundings over the in-memory vendor: no client data, a
retry interval of 5 overridden to 1, a timeout of 600. -/
def memorySweepLBEnv : SweepLBEnv Unit (List (Zone × LB)) :=
  { NewZonedAPI := fun _ => memoryZonedAPI
    defaultWaitLBRetryInterval := 5
    DefaultWaitRetryInterval := some 1
    defaultInstanceServerWaitTimeout := 600 }

/-- Three leftover load balancers: two in `fr-par-1`, one in `nl-ams-1`. -/
def leftoverLBs : List (Zone × LB) :=
  [("fr-par-1", { ID := "lb-a" }), ("nl-ams-1", { ID := "lb-b" }), ("fr-par-1", { ID := "lb-c" })]

/-- A resource id `<zone>/<id>` cut at its first `/`. -/
def cutZonedID (id : String) : Option (Zone × String) :=
  match id.data.span (fun c => c != '/') with
  | (zone, '/' :: rest) => some (String.mk zone, String.mk rest)
  | _ => none

/-- The helpers of the load-balancer check over the in-memory vendor. -/
def memoryLbCheckEnv : LbCheckEnv Unit (List (Zone × LB)) :=
  { lbAPIWithZoneAndID := fun _ id =>
      match cutZonedID id with
      | some (zone, ID) => .ok (memoryZonedAPI, zone, ID)
      | none => .error { message := "can't parse zoned id: " ++ id }
    is404Error := fun err => err.statusCode == some 404 }

/-- An in-memory bare-metal vendor: its state is the list of the servers it
holds; it refuses to delete the server `srv-locked` and answers 404 for a
server it does not hold. -/
def memoryBaremetalAPI : BaremetalAPI (List Server) where
  ListServers _ held := (.ok { Servers := held }, held)
  DeleteServer req held :=
    if req.ServerID = "srv-locked" then (.error permissionDenied, held)
    else
      match held.find? (fun sv => sv.ID == req.ServerID) with
      | some sv => (.ok sv, held.filter (fun sv => sv.ID != req.ServerID))
      | none => (.error resourceNotFound, held)
  GetServer req held :=
    match held.find? (fun sv => sv.ID == req.ServerID) with
    | some sv => (.ok sv, held)
    | none => (.error resourceNotFound, held)

/-- The helpers of the bare-metal check over the in-memory vendor. -/
def memoryBaremetalCheckEnv : BaremetalCheckEnv Unit (List Server) :=
  { testAccProviderMeta := ()
    baremetalAPIWithZoneAndID := fun _ id =>
      match cutZonedID id with
      | some (zone, ID) => .ok (memoryBaremetalAPI, { ID := ID, Zone := zone })
      | none => .error { message := "can't parse zoned id: " ++ id }
    is404Error := fun err => err.statusCode == some 404 }

/-- The resources of a root module after a destroy: a load balancer, an IP and
a bare-metal server. -/
def destroyedResources : RootResources :=
  [ { Typ := "scaleway_lb", PrimaryID := "fr-par-1/lb-a" },
    { Typ := "scaleway_lb_ip", PrimaryID := "fr-par-1/ip-a" },
    { Typ := "scaleway_baremetal_server", PrimaryID := "fr-par-2/srv-1" } ]

/-- Three leftover servers, the second of which cannot be deleted. -/
def leftoverServers : List Server :=
  [{ ID := "srv-1" }, { ID := "srv-locked" }, { ID := "srv-3" }]

/-! ## Theorems: load-balancer state upgrade -/

/-- Cutting `locality ++ '/' :: rest` at the first `/` gives back `locality`
when `locality` itself has no `/`. -/
theorem span_slash (locality rest : List Char) (h : locality.contains '/' = false) :
    (locality ++ '/' :: rest).span (fun c => c != '/') = (locality, '/' :: rest) := by
  induction locality with
  | nil => simp [List.span_eq_take_drop]
  | cons c cs ih =>
    have hc : c ≠ '/' := by
      intro hc
      simp [hc] at h
    have hcs : cs.contains '/' = false := by
      simp only [List.contains_eq_any_beq, List.any_cons, Bool.or_eq_false_iff] at h ⊢
      exact h.2
    have ih2 := ih hcs
    simp only [List.span_eq_take_drop, Prod.mk.injEq] at ih2 ⊢
    simp [List.takeWhile_cons, List.dropWhile_cons, hc, ih2.1, ih2.2]

/-- The rewrite on a regional identifier appends `-1` to the region. -/
theorem regionalToZonedID_region (region uuid : String)
    (hregion : isRegion region.data = true) :
    regionalToZonedID (region ++ "/" ++ uuid) = .ok (region ++ "-1" ++ "/" ++ uuid) := by
  have hno : region.data.contains '/' = false := by
    unfold isRegion at hregion
    simp only [Bool.and_eq_true, Bool.not_eq_true_eq_eq_false] at hregion
    simpa using hregion.1
  have hdata : (region ++ "/" ++ uuid).data = region.data ++ '/' :: uuid.data := by
    simp [String.data_append]
  unfold regionalToZonedID
  rw [hdata, span_slash _ _ hno]
  simp only [Except.ok.injEq]
  apply String.ext
  simp [String.data_append]

/-- Reading a key back after assigning to it, when the key was present. -/
theorem RawState.get_set_self (rawState : RawState) (key : String) (old v : RawValue)
    (h : rawState.get key = some old) : (rawState.set key v).get key = some v := by
  induction rawState with
  | nil => simp [RawState.get] at h
  | cons kv rest ih =>
    by_cases hk : kv.1 = key
    · simp [RawState.get, RawState.set, List.find?_cons, hk]
    · have h2 : RawState.get rest key = some old := by
        simpa [RawState.get, List.find?_cons, hk] using h
      have ih2 := ih h2
      simp only [RawState.get, RawState.set] at ih2 ⊢
      simpa [List.find?_cons, hk] using ih2

/-- Assignment leaves the keys as they are. -/
theorem RawState.keys_set (rawState : RawState) (key : String) (v : RawValue) :
    (rawState.set key v).keys = rawState.keys := by
  unfold RawState.keys RawState.set
  rw [List.map_map]
  congr 1
  funext kv
  by_cases hk : kv.1 = key <;> simp [hk]

/-- Assignment to one key leaves the value under any other key as it is. -/
theorem RawState.get_set_other (rawState : RawState) (key other : String) (v : RawValue)
    (h : other ≠ key) : (rawState.set key v).get other = rawState.get other := by
  induction rawState with
  | nil => rfl
  | cons kv rest ih =>
    obtain ⟨k, val⟩ := kv
    simp only [RawState.get, RawState.set, List.map_cons] at ih ⊢
    by_cases hk : k = key
    · have hne : ¬ key = other := fun e => h e.symm
      subst hk
      simpa [List.find?_cons, hne] using ih
    · by_cases ho : k = other
      · subst ho
        simp [List.find?_cons, hk]
      · simpa [List.find?_cons, hk, ho] using ih

/-- A successful upgrade is the assignment of a string to `"id"`. -/
theorem lbUpgrade_ok_eq_set (rawState upgraded : RawState)
    (h : lbUpgradeV1SchemaUpgradeFunc rawState = .ok upgraded) :
    ∃ zoned, upgraded = rawState.set "id" (.str zoned) := by
  unfold lbUpgradeV1SchemaUpgradeFunc at h
  split at h
  · split at h
    · rename_i zoned _
      exact ⟨zoned, by simpa using h.symm⟩
    · simp at h
  · simp at h

/-- C1: for every version-0 state whose `"id"` is a regional identifier
`<region>/<uuid>` (the region has no `/` and carries no zone number),
`lbUpgradeV1SchemaUpgradeFunc` returns no error, and the `"id"` of the state
it returns is `<region>-1/<uuid>`: `-1` appended to the region, the part
after the `/` unchanged. -/
theorem lbUpgrade_regional_to_zoned (rawState : RawState) (region uuid : String)
    (hid : rawState.get "id" = some (.str (region ++ "/" ++ uuid)))
    (hregion : isRegion region.data = true) :
    ∃ upgraded, lbUpgradeV1SchemaUpgradeFunc rawState = .ok upgraded ∧
      upgraded.get "id" = some (.str (region ++ "-1" ++ "/" ++ uuid)) := by
  refine ⟨rawState.set "id" (.str (region ++ "-1" ++ "/" ++ uuid)), ?_, ?_⟩
  · unfold lbUpgradeV1SchemaUpgradeFunc
    rw [hid]
    simp only [regionalToZonedID_region region uuid hregion]
  · exact RawState.get_set_self rawState "id" _ _ hid

/-- The example of C1: the state of `TestLbUpgradeV1SchemaUpgradeFunc`, with
region `fr-par`, is upgraded to the identifier in zone `fr-par-1`. -/
theorem lbUpgrade_regional_to_zoned_witness :
    v0Schema.get "id" = some (.str ("fr-par" ++ "/" ++ "22c61530-834c-4ab4-aa71-aaaa2ac9d45a")) ∧
    isRegion "fr-par".data = true ∧
    ∃ upgraded, lbUpgradeV1SchemaUpgradeFunc v0Schema = .ok upgraded ∧
      upgraded.get "id" =
        some (.str ("fr-par" ++ "-1" ++ "/" ++ "22c61530-834c-4ab4-aa71-aaaa2ac9d45a")) :=
  ⟨by decide, by decide,
    lbUpgrade_regional_to_zoned v0Schema "fr-par" "22c61530-834c-4ab4-aa71-aaaa2ac9d45a"
      (by decide) (by decide)⟩

/-- C2: `lbUpgradeV1SchemaUpgradeFunc` rewrites only the `"id"` entry: whenever
it succeeds, the returned state has exactly the keys of the input state (none
added, none removed, in the same places), and the value under every key other
than `"id"` is the input value. -/
theorem lbUpgrade_only_id (rawState upgraded : RawState)
    (h : lbUpgradeV1SchemaUpgradeFunc rawState = .ok upgraded) :
    upgraded.keys = rawState.keys ∧
    upgraded.length = rawState.length ∧
    ∀ key, key ≠ "id" → upgraded.get key = rawState.get key := by
  obtain ⟨zoned, rfl⟩ := lbUpgrade_ok_eq_set rawState upgraded h
  refine ⟨RawState.keys_set _ _ _, ?_, fun key hkey => RawState.get_set_other _ _ _ _ hkey⟩
  simp [RawState.set]

/-- The example of C2: the one-entry state of `TestLbUpgradeV1SchemaUpgradeFunc`
becomes exactly the expected one-entry state. -/
theorem lbUpgrade_only_id_witness :
    lbUpgradeV1SchemaUpgradeFunc v0Schema = .ok v1Schema ∧
    v1Schema.keys = v0Schema.keys ∧
    v1Schema.length = v0Schema.length ∧
    ∀ key, key ≠ "id" → v1Schema.get key = v0Schema.get key :=
  ⟨rfl, lbUpgrade_only_id v0Schema v1Schema rfl⟩

/-! ## Theorems: cockpit-token handlers -/

/-- C3: when `GetToken` fails with an error that `is404Error` classifies as
not found, `resourceScalewayCockpitTokenRead` sets the resource id to the empty
string, returns no diagnostics, and writes none of `name`, `scopes`,
`project_id`, `secret_key`: the resource data is the one it was given with
the id emptied. -/
theorem read_not_found_clears_id {Meta σ : Type} (h : Helpers Meta σ) (d : ResourceData)
    (meta : Meta) (s s1 : σ) (api : API σ) (err : GoError)
    (hapi : h.cockpitAPI meta = .ok api)
    (hget : api.GetToken { TokenID := d.id } s = (.error err, s1))
    (h404 : h.is404Error err = true) :
    (resourceScalewayCockpitTokenRead h d meta s).diags = [] ∧
    (resourceScalewayCockpitTokenRead h d meta s).d.id = "" ∧
    (resourceScalewayCockpitTokenRead h d meta s).d.name = d.name ∧
    (resourceScalewayCockpitTokenRead h d meta s).d.scopes = d.scopes ∧
    (resourceScalewayCockpitTokenRead h d meta s).d.project_id = d.project_id ∧
    (resourceScalewayCockpitTokenRead h d meta s).d.secret_key = d.secret_key := by
  simp [resourceScalewayCockpitTokenRead, hapi, ResourceData.Id, hget, h404, ResourceData.SetId]

/-- C3 on the in-memory vendor: reading a token the vendor no longer holds. -/
theorem read_not_found_clears_id_witness :
    memoryHelpers.cockpitAPI true = .ok memoryAPI ∧
    memoryAPI.GetToken { TokenID := createdToken.id } [] = (.error tokenNotFound, []) ∧
    memoryHelpers.is404Error tokenNotFound = true ∧
    (resourceScalewayCockpitTokenRead memoryHelpers createdToken true []).diags = [] ∧
    (resourceScalewayCockpitTokenRead memoryHelpers createdToken true []).d.id = "" ∧
    (resourceScalewayCockpitTokenRead memoryHelpers createdToken true []).d.name
      = createdToken.name ∧
    (resourceScalewayCockpitTokenRead memoryHelpers createdToken true []).d.scopes
      = createdToken.scopes ∧
    (resourceScalewayCockpitTokenRead memoryHelpers createdToken true []).d.project_id
      = createdToken.project_id ∧
    (resourceScalewayCockpitTokenRead memoryHelpers createdToken true []).d.secret_key
      = createdToken.secret_key :=
  ⟨rfl, rfl, rfl,
    read_not_found_clears_id memoryHelpers createdToken true [] [] memoryAPI tokenNotFound
      rfl rfl rfl⟩

/-- C4, on the code: deleting a token the vendor no longer holds. `DeleteToken`
answers with a 404 error, which `is404Error` classifies as not found, and
`resourceScalewayCockpitTokenDelete` returns that error as an error diagnostic
instead of no diagnostics. -/
theorem delete_not_found_returns_error :
    memoryAPI.DeleteToken { TokenID := createdToken.id } [] = (some tokenNotFound, []) ∧
    memoryHelpers.is404Error tokenNotFound = true ∧
    (resourceScalewayCockpitTokenDelete memoryHelpers createdToken true []).diags
      = [{ Severity := .Error, Summary := tokenNotFound.message }] ∧
    (resourceScalewayCockpitTokenDelete memoryHelpers createdToken true []).diags ≠ [] := by
  refine ⟨rfl, rfl, rfl, ?_⟩
  decide

/-- The outcomes of the read handler, case by case. -/
theorem read_cases {Meta σ : Type} (h : Helpers Meta σ) (d : ResourceData) (meta : Meta)
    (s : σ) :
    (∃ err, h.cockpitAPI meta = .error err ∧
      (resourceScalewayCockpitTokenRead h d meta s).diags = FromErr err ∧
      (resourceScalewayCockpitTokenRead h d meta s).d = d ∧
      (resourceScalewayCockpitTokenRead h d meta s).calls = []) ∨
    (∃ api err s1, h.cockpitAPI meta = .ok api ∧
      api.GetToken { TokenID := d.id } s = (.error err, s1) ∧ h.is404Error err = true ∧
      (resourceScalewayCockpitTokenRead h d meta s).diags = [] ∧
      (resourceScalewayCockpitTokenRead h d meta s).d = { d with id := "" } ∧
      (resourceScalewayCockpitTokenRead h d meta s).calls
        = [.GetToken { TokenID := d.id } (some err)]) ∨
    (∃ api err s1, h.cockpitAPI meta = .ok api ∧
      api.GetToken { TokenID := d.id } s = (.error err, s1) ∧ h.is404Error err = false ∧
      (resourceScalewayCockpitTokenRead h d meta s).diags = FromErr err ∧
      (resourceScalewayCockpitTokenRead h d meta s).d = d ∧
      (resourceScalewayCockpitTokenRead h d meta s).calls
        = [.GetToken { TokenID := d.id } (some err)]) ∨
    (∃ api res s1, h.cockpitAPI meta = .ok api ∧
      api.GetToken { TokenID := d.id } s = (.ok res, s1) ∧
      (resourceScalewayCockpitTokenRead h d meta s).diags = [] ∧
      (resourceScalewayCockpitTokenRead h d meta s).d
        = { d with name := res.Name, scopes := h.flattenCockpitTokenScopes res.Scopes,
                   project_id := res.ProjectID } ∧
      (resourceScalewayCockpitTokenRead h d meta s).calls
        = [.GetToken { TokenID := d.id } none]) := by
  cases hapi : h.cockpitAPI meta with
  | error err =>
    left
    exact ⟨err, rfl, by simp [resourceScalewayCockpitTokenRead, hapi]⟩
  | ok api =>
    right
    rcases hget : api.GetToken { TokenID := d.id } s with ⟨res, s1⟩
    cases res with
    | error err =>
      by_cases h404 : h.is404Error err = true
      · left
        exact ⟨api, err, s1, rfl, hget, h404, by
          simp [resourceScalewayCockpitTokenRead, hapi, ResourceData.Id, hget, h404,
            ResourceData.SetId]⟩
      · right; left
        have h404f : h.is404Error err = false := by simpa using h404
        exact ⟨api, err, s1, rfl, hget, h404f, by
          simp [resourceScalewayCockpitTokenRead, hapi, ResourceData.Id, hget, h404f]⟩
    | ok res =>
      right; right
      exact ⟨api, res, s1, rfl, hget, by
        simp [resourceScalewayCockpitTokenRead, hapi, ResourceData.Id, hget, ResourceData.Set]⟩

/-- The outcomes of the delete handler, case by case. -/
theorem delete_cases {Meta σ : Type} (h : Helpers Meta σ) (d : ResourceData) (meta : Meta)
    (s : σ) :
    (∃ err, h.cockpitAPI meta = .error err ∧
      (resourceScalewayCockpitTokenDelete h d meta s).diags = FromErr err ∧
      (resourceScalewayCockpitTokenDelete h d meta s).d = d ∧
      (resourceScalewayCockpitTokenDelete h d meta s).calls = []) ∨
    (∃ api err s1, h.cockpitAPI meta = .ok api ∧
      api.DeleteToken { TokenID := d.id } s = (some err, s1) ∧
      (resourceScalewayCockpitTokenDelete h d meta s).diags = FromErr err ∧
      (resourceScalewayCockpitTokenDelete h d meta s).d = d ∧
      (resourceScalewayCockpitTokenDelete h d meta s).calls
        = [.DeleteToken { TokenID := d.id } (some err)]) ∨
    (∃ api s1, h.cockpitAPI meta = .ok api ∧
      api.DeleteToken { TokenID := d.id } s = (none, s1) ∧
      (resourceScalewayCockpitTokenDelete h d meta s).diags = [] ∧
      (resourceScalewayCockpitTokenDelete h d meta s).d = d ∧
      (resourceScalewayCockpitTokenDelete h d meta s).calls
        = [.DeleteToken { TokenID := d.id } none]) := by
  cases hapi : h.cockpitAPI meta with
  | error err =>
    left
    exact ⟨err, rfl, by simp [resourceScalewayCockpitTokenDelete, hapi]⟩
  | ok api =>
    right
    rcases hdel : api.DeleteToken { TokenID := d.id } s with ⟨res, s1⟩
    cases res with
    | some err =>
      left
      exact ⟨api, err, s1, rfl, hdel, by
        simp [resourceScalewayCockpitTokenDelete, hapi, ResourceData.Id, hdel]⟩
    | none =>
      right
      exact ⟨api, s1, rfl, hdel, by
        simp [resourceScalewayCockpitTokenDelete, hapi, ResourceData.Id, hdel]⟩

/-- The outcomes of the create handler: it stops at a missing client or a
failed `CreateToken`, and otherwise is the read handler run on the data with
the new secret key and id, after one successful `CreateToken`. -/
theorem create_cases {Meta σ : Type} (h : Helpers Meta σ) (d : ResourceData) (meta : Meta)
    (s : σ) :
    (∃ err, h.cockpitAPI meta = .error err ∧
      (resourceScalewayCockpitTokenCreate h d meta s).diags = FromErr err ∧
      (resourceScalewayCockpitTokenCreate h d meta s).d = d ∧
      (resourceScalewayCockpitTokenCreate h d meta s).calls = []) ∨
    (∃ api err s1, h.cockpitAPI meta = .ok api ∧
      api.CreateToken { Name := d.name, Scopes := h.expandCockpitTokenScopes d.scopes,
                        ProjectID := d.project_id } s = (.error err, s1) ∧
      (resourceScalewayCockpitTokenCreate h d meta s).diags = FromErr err ∧
      (resourceScalewayCockpitTokenCreate h d meta s).d = d ∧
      (resourceScalewayCockpitTokenCreate h d meta s).calls
        = [.CreateToken { Name := d.name, Scopes := h.expandCockpitTokenScopes d.scopes,
                          ProjectID := d.project_id } (some err)]) ∨
    (∃ api res s1, h.cockpitAPI meta = .ok api ∧
      api.CreateToken { Name := d.name, Scopes := h.expandCockpitTokenScopes d.scopes,
                        ProjectID := d.project_id } s = (.ok res, s1) ∧
      (resourceScalewayCockpitTokenCreate h d meta s).diags
        = (resourceScalewayCockpitTokenRead h
            { d with secret_key := res.SecretKey, id := res.ID } meta s1).diags ∧
      (resourceScalewayCockpitTokenCreate h d meta s).d
        = (resourceScalewayCockpitTokenRead h
            { d with secret_key := res.SecretKey, id := res.ID } meta s1).d ∧
      (resourceScalewayCockpitTokenCreate h d meta s).calls
        = .CreateToken { Name := d.name, Scopes := h.expandCockpitTokenScopes d.scopes,
                         ProjectID := d.project_id } none ::
          (resourceScalewayCockpitTokenRead h
            { d with secret_key := res.SecretKey, id := res.ID } meta s1).calls) := by
  cases hapi : h.cockpitAPI meta with
  | error err =>
    left
    exact ⟨err, rfl, by simp [resourceScalewayCockpitTokenCreate, hapi]⟩
  | ok api =>
    right
    rcases hcr : api.CreateToken
      (CreateTokenRequest.mk d.name (h.expandCockpitTokenScopes d.scopes) d.project_id) s
      with ⟨res, s1⟩
    cases res with
    | error err =>
      left
      exact ⟨api, err, s1, rfl, hcr, by
        simp [resourceScalewayCockpitTokenCreate, hapi, hcr]⟩
    | ok res =>
      right
      exact ⟨api, res, s1, rfl, hcr, by
        simp [resourceScalewayCockpitTokenCreate, hapi, hcr, ResourceData.Set,
          ResourceData.SetId]⟩

/-- C5: with the API client obtained, in each cockpit-token handler a vendor
call that answers with an error `is404Error` does not classify as not found
makes the handler return exactly one error diagnostic whose summary is that
error's message: `CreateToken` or the `GetToken` that follows it in create,
`GetToken` in read, `DeleteToken` in delete. And a handler returns no
diagnostics only when each vendor call it issued succeeded or was a `GetToken`
whose error was classified as not found: create after a successful
`CreateToken` and such a `GetToken`, read after such a `GetToken`, delete
after a successful `DeleteToken`. -/
theorem handlers_report_vendor_errors {Meta σ : Type} (h : Helpers Meta σ)
    (d : ResourceData) (meta : Meta) (s : σ) (api : API σ)
    (hapi : h.cockpitAPI meta = .ok api) :
    ((∀ err s1,
        api.CreateToken { Name := d.name, Scopes := h.expandCockpitTokenScopes d.scopes,
                          ProjectID := d.project_id } s = (.error err, s1) →
        h.is404Error err = false →
        (resourceScalewayCockpitTokenCreate h d meta s).diags
          = [{ Severity := .Error, Summary := err.message }]) ∧
      (∀ res s1 err s2,
        api.CreateToken { Name := d.name, Scopes := h.expandCockpitTokenScopes d.scopes,
                          ProjectID := d.project_id } s = (.ok res, s1) →
        api.GetToken { TokenID := res.ID } s1 = (.error err, s2) →
        h.is404Error err = false →
        (resourceScalewayCockpitTokenCreate h d meta s).diags
          = [{ Severity := .Error, Summary := err.message }]) ∧
      ((resourceScalewayCockpitTokenCreate h d meta s).diags = [] →
        ∃ res s1,
          api.CreateToken { Name := d.name, Scopes := h.expandCockpitTokenScopes d.scopes,
                            ProjectID := d.project_id } s = (.ok res, s1) ∧
          ((∃ g s2, api.GetToken { TokenID := res.ID } s1 = (.ok g, s2) ∧
              (resourceScalewayCockpitTokenCreate h d meta s).calls
                = [.CreateToken { Name := d.name,
                                  Scopes := h.expandCockpitTokenScopes d.scopes,
                                  ProjectID := d.project_id } none,
                   .GetToken { TokenID := res.ID } none]) ∨
            (∃ err s2, api.GetToken { TokenID := res.ID } s1 = (.error err, s2) ∧
              h.is404Error err = true ∧
              (resourceScalewayCockpitTokenCreate h d meta s).calls
                = [.CreateToken { Name := d.name,
                                  Scopes := h.expandCockpitTokenScopes d.scopes,
                                  ProjectID := d.project_id } none,
                   .GetToken { TokenID := res.ID } (some err)])))) ∧
    ((∀ err s1, api.GetToken { TokenID := d.id } s = (.error err, s1) →
        h.is404Error err = false →
        (resourceScalewayCockpitTokenRead h d meta s).diags
          = [{ Severity := .Error, Summary := err.message }]) ∧
      ((resourceScalewayCockpitTokenRead h d meta s).diags = [] →
        (∃ res s1, api.GetToken { TokenID := d.id } s = (.ok res, s1) ∧
          (resourceScalewayCockpitTokenRead h d meta s).calls
            = [.GetToken { TokenID := d.id } none]) ∨
        (∃ err s1, api.GetToken { TokenID := d.id } s = (.error err, s1) ∧
          h.is404Error err = true ∧
          (resourceScalewayCockpitTokenRead h d meta s).calls
            = [.GetToken { TokenID := d.id } (some err)]))) ∧
    ((∀ err s1, api.DeleteToken { TokenID := d.id } s = (some err, s1) →
        h.is404Error err = false →
        (resourceScalewayCockpitTokenDelete h d meta s).diags
          = [{ Severity := .Error, Summary := err.message }]) ∧
      ((resourceScalewayCockpitTokenDelete h d meta s).diags = [] →
        ∃ s1, api.DeleteToken { TokenID := d.id } s = (none, s1) ∧
          (resourceScalewayCockpitTokenDelete h d meta s).calls
            = [.DeleteToken { TokenID := d.id } none])) := by
  have hread : ∀ (d0 : ResourceData) (s0 : σ),
      (∀ err s1, api.GetToken { TokenID := d0.id } s0 = (.error err, s1) →
        h.is404Error err = false →
        (resourceScalewayCockpitTokenRead h d0 meta s0).diags
          = [{ Severity := .Error, Summary := err.message }]) ∧
      ((resourceScalewayCockpitTokenRead h d0 meta s0).diags = [] →
        (∃ res s1, api.GetToken { TokenID := d0.id } s0 = (.ok res, s1) ∧
          (resourceScalewayCockpitTokenRead h d0 meta s0).calls
            = [.GetToken { TokenID := d0.id } none]) ∨
        (∃ err s1, api.GetToken { TokenID := d0.id } s0 = (.error err, s1) ∧
          h.is404Error err = true ∧
          (resourceScalewayCockpitTokenRead h d0 meta s0).calls
            = [.GetToken { TokenID := d0.id } (some err)])) := by
    intro d0 s0
    rcases hget : api.GetToken (GetTokenRequest.mk d0.id) s0 with ⟨res, s1⟩
    cases res with
    | error err =>
      by_cases h404 : h.is404Error err = true
      · refine ⟨fun e s2 he hf => ?_, fun _ => Or.inr ⟨err, s1, rfl, h404, ?_⟩⟩
        · simp only [Prod.mk.injEq, Except.error.injEq] at he
          rw [← he.1, h404] at hf
          cases hf
        · simp [resourceScalewayCockpitTokenRead, hapi, ResourceData.Id, hget, h404]
      · have h404f : h.is404Error err = false := by simpa using h404
        refine ⟨fun e s2 he _ => ?_, fun hnil => ?_⟩
        · simp only [Prod.mk.injEq, Except.error.injEq] at he
          obtain ⟨rfl, rfl⟩ := he
          simp [resourceScalewayCockpitTokenRead, hapi, ResourceData.Id, hget, h404f, FromErr]
        · simp [resourceScalewayCockpitTokenRead, hapi, ResourceData.Id, hget, h404f,
            FromErr] at hnil
    | ok res =>
      refine ⟨fun e s2 he _ => by simp at he, fun _ => Or.inl ⟨res, s1, rfl, ?_⟩⟩
      simp [resourceScalewayCockpitTokenRead, hapi, ResourceData.Id, hget]
  refine ⟨?_, hread d s, ?_⟩
  · rcases hcr : api.CreateToken
      (CreateTokenRequest.mk d.name (h.expandCockpitTokenScopes d.scopes) d.project_id) s
      with ⟨res, s1⟩
    cases res with
    | error err =>
      refine ⟨fun e s2 he _ => ?_, fun r s2 e s3 he => by simp at he, fun hnil => ?_⟩
      · simp only [Prod.mk.injEq, Except.error.injEq] at he
        simp [resourceScalewayCockpitTokenCreate, hapi, hcr, FromErr, he.1]
      · simp [resourceScalewayCockpitTokenCreate, hapi, hcr, FromErr] at hnil
    | ok res =>
      have hrun : (resourceScalewayCockpitTokenCreate h d meta s).diags
            = (resourceScalewayCockpitTokenRead h
                { d with secret_key := res.SecretKey, id := res.ID } meta s1).diags ∧
          (resourceScalewayCockpitTokenCreate h d meta s).calls
            = .CreateToken { Name := d.name, Scopes := h.expandCockpitTokenScopes d.scopes,
                             ProjectID := d.project_id } none ::
              (resourceScalewayCockpitTokenRead h
                { d with secret_key := res.SecretKey, id := res.ID } meta s1).calls := by
        simp [resourceScalewayCockpitTokenCreate, hapi, hcr, ResourceData.Set,
          ResourceData.SetId]
      obtain ⟨hr1, hr2⟩ := hread { d with secret_key := res.SecretKey, id := res.ID } s1
      refine ⟨fun e s2 he _ => by simp at he, fun r s2 e s3 he hg hf => ?_, fun hnil => ?_⟩
      · simp only [Prod.mk.injEq, Except.ok.injEq] at he
        obtain ⟨hres, hs⟩ := he
        subst hres hs
        rw [hrun.1]
        exact hr1 e s3 hg hf
      · rw [hrun.1] at hnil
        refine ⟨res, s1, rfl, ?_⟩
        rcases hr2 hnil with ⟨g, s2, hg, hc⟩ | ⟨e, s2, hg, h404, hc⟩
        · exact Or.inl ⟨g, s2, hg, by rw [hrun.2, hc]⟩
        · exact Or.inr ⟨e, s2, hg, h404, by rw [hrun.2, hc]⟩
  · rcases hdel : api.DeleteToken (DeleteTokenRequest.mk d.id) s with ⟨res, s1⟩
    cases res with
    | some err =>
      refine ⟨fun e s2 he _ => ?_, fun hnil => ?_⟩
      · simp only [Prod.mk.injEq, Option.some.injEq] at he
        simp [resourceScalewayCockpitTokenDelete, hapi, ResourceData.Id, hdel, FromErr, he.1]
      · simp [resourceScalewayCockpitTokenDelete, hapi, ResourceData.Id, hdel, FromErr] at hnil
    | none =>
      refine ⟨fun e s2 he _ => by simp at he, fun _ => ⟨s1, rfl, ?_⟩⟩
      simp [resourceScalewayCockpitTokenDelete, hapi, ResourceData.Id, hdel]

/-- C5 on vendors that refuse calls with a 403 error, which is not a not-found
error: create, read and delete on the vendor that refuses every call, and
create on the vendor that refuses the read after the creation, each return the
403 error's message as their one error diagnostic. -/
theorem handlers_report_vendor_errors_witness :
    (resourceScalewayCockpitTokenCreate forbiddenHelpers plannedToken true []).diags
      = [{ Severity := .Error, Summary := permissionDenied.message }] ∧
    (resourceScalewayCockpitTokenCreate unreadableHelpers plannedToken true []).diags
      = [{ Severity := .Error, Summary := permissionDenied.message }] ∧
    (resourceScalewayCockpitTokenRead forbiddenHelpers createdToken true [heldToken]).diags
      = [{ Severity := .Error, Summary := permissionDenied.message }] ∧
    (resourceScalewayCockpitTokenDelete forbiddenHelpers createdToken true [heldToken]).diags
      = [{ Severity := .Error, Summary := permissionDenied.message }] :=
  ⟨(handlers_report_vendor_errors forbiddenHelpers plannedToken true [] forbiddenAPI rfl).1.1
      permissionDenied [] rfl rfl,
    (handlers_report_vendor_errors unreadableHelpers plannedToken true [] unreadableAPI
      rfl).1.2.1 { heldToken with SecretKey := some "secret-of-my-token" } [heldToken]
      permissionDenied [heldToken] rfl rfl rfl,
    (handlers_report_vendor_errors forbiddenHelpers createdToken true [heldToken] forbiddenAPI
      rfl).2.1.1 permissionDenied [heldToken] rfl rfl,
    (handlers_report_vendor_errors forbiddenHelpers createdToken true [heldToken] forbiddenAPI
      rfl).2.2.1 permissionDenied [heldToken] rfl rfl⟩

/-- C6: when the API client is obtained, `CreateToken` succeeds with `res` and
the `GetToken` that follows succeeds with `g`, `resourceScalewayCockpitTokenCreate`
sends one `CreateToken` request with the configured name, the expansion of the
configured scopes and the configured project id, then one `GetToken` for
`res.ID`; it returns no diagnostics and leaves the data with `id = res.ID`,
`secret_key = res.SecretKey` and `name`, `scopes` (flattened), `project_id`
taken from `g`. -/
theorem create_success {Meta σ : Type} (h : Helpers Meta σ) (d : ResourceData) (meta : Meta)
    (s s1 s2 : σ) (api : API σ) (res g : Token)
    (hapi : h.cockpitAPI meta = .ok api)
    (hcreate : api.CreateToken { Name := d.name, Scopes := h.expandCockpitTokenScopes d.scopes,
                                 ProjectID := d.project_id } s = (.ok res, s1))
    (hget : api.GetToken { TokenID := res.ID } s1 = (.ok g, s2)) :
    (resourceScalewayCockpitTokenCreate h d meta s).calls =
      [.CreateToken { Name := d.name, Scopes := h.expandCockpitTokenScopes d.scopes,
                      ProjectID := d.project_id } none,
       .GetToken { TokenID := res.ID } none] ∧
    (resourceScalewayCockpitTokenCreate h d meta s).diags = [] ∧
    (resourceScalewayCockpitTokenCreate h d meta s).d.id = res.ID ∧
    (resourceScalewayCockpitTokenCreate h d meta s).d.secret_key = res.SecretKey ∧
    (resourceScalewayCockpitTokenCreate h d meta s).d.name = g.Name ∧
    (resourceScalewayCockpitTokenCreate h d meta s).d.scopes
      = h.flattenCockpitTokenScopes g.Scopes ∧
    (resourceScalewayCockpitTokenCreate h d meta s).d.project_id = g.ProjectID ∧
    (resourceScalewayCockpitTokenCreate h d meta s).vendor = s2 := by
  simp [resourceScalewayCockpitTokenCreate, resourceScalewayCockpitTokenRead, hapi, hcreate,
    ResourceData.Id, ResourceData.Set, ResourceData.SetId, hget]

/-- C6 on the in-memory vendor: creating the planned token `my-token`. -/
theorem create_success_witness :
    (resourceScalewayCockpitTokenCreate memoryHelpers plannedToken true []).calls =
      [.CreateToken { Name := "my-token",
                      Scopes := memoryHelpers.expandCockpitTokenScopes [defaultScopes],
                      ProjectID := "project-1" } none,
       .GetToken { TokenID := "id-of-my-token" } none] ∧
    (resourceScalewayCockpitTokenCreate memoryHelpers plannedToken true []).diags = [] ∧
    (resourceScalewayCockpitTokenCreate memoryHelpers plannedToken true []).d.id
      = "id-of-my-token" ∧
    (resourceScalewayCockpitTokenCreate memoryHelpers plannedToken true []).d.secret_key
      = some "secret-of-my-token" ∧
    (resourceScalewayCockpitTokenCreate memoryHelpers plannedToken true []).d.name
      = "my-token" ∧
    (resourceScalewayCockpitTokenCreate memoryHelpers plannedToken true []).d.scopes
      = memoryHelpers.flattenCockpitTokenScopes heldToken.Scopes ∧
    (resourceScalewayCockpitTokenCreate memoryHelpers plannedToken true []).d.project_id
      = "project-1" ∧
    (resourceScalewayCockpitTokenCreate memoryHelpers plannedToken true []).vendor
      = [heldToken] :=
  create_success memoryHelpers plannedToken true [] [heldToken] [heldToken] memoryAPI
    { heldToken with SecretKey := some "secret-of-my-token" } heldToken rfl rfl rfl

/-- C7: in the cockpit-token schema, `scopes` is an optional list holding,
when given, exactly one block (`MinItems = MaxItems = 1`), and that block has
exactly seven fields, all boolean and optional (none required), of which
`write_metrics` and `write_logs` default to true and `query_metrics`,
`setup_metrics_rules`, `query_logs`, `setup_logs_rules`, `setup_alerts` default
to false. -/
theorem cockpitToken_scopes_schema (defaultCockpitTimeout : Nat) (projectIDSchema : Schema) :
    ∃ scopes,
      (resourceScalewayCockpitToken defaultCockpitTimeout projectIDSchema).field "scopes"
        = some scopes ∧
      scopes.Typ = .TypeList ∧ scopes.Optional = true ∧
      scopes.MinItems = 1 ∧ scopes.MaxItems = 1 ∧
      scopes.elemFields.length = 7 ∧
      scopes.elemFields.map
          (fun f => (f.1, f.2.Typ, f.2.Optional, f.2.Required, f.2.Default)) =
        [ ("query_metrics", .TypeBool, true, false, some (.bool false)),
          ("write_metrics", .TypeBool, true, false, some (.bool true)),
          ("setup_metrics_rules", .TypeBool, true, false, some (.bool false)),
          ("query_logs", .TypeBool, true, false, some (.bool false)),
          ("write_logs", .TypeBool, true, false, some (.bool true)),
          ("setup_logs_rules", .TypeBool, true, false, some (.bool false)),
          ("setup_alerts", .TypeBool, true, false, some (.bool false)) ] :=
  ⟨_, rfl, rfl, rfl, rfl, rfl, rfl, rfl⟩

/-- C8: in the cockpit-token schema `name` is a required string and
`secret_key` is a computed, sensitive string that is neither required nor
optional; and the handlers write `secret_key` only from the vendor: read and
delete leave it as it was, and create leaves it as it was or sets it to the
`SecretKey` of the response of its `CreateToken`. -/
theorem cockpitToken_name_secret_key {Meta σ : Type} (defaultCockpitTimeout : Nat)
    (projectIDSchema : Schema) (h : Helpers Meta σ) (d : ResourceData) (meta : Meta) (s : σ) :
    (∃ name,
      (resourceScalewayCockpitToken defaultCockpitTimeout projectIDSchema).field "name"
        = some name ∧
      name.Typ = .TypeString ∧ name.Required = true ∧ name.Optional = false ∧
      name.Computed = false) ∧
    (∃ secret,
      (resourceScalewayCockpitToken defaultCockpitTimeout projectIDSchema).field "secret_key"
        = some secret ∧
      secret.Typ = .TypeString ∧ secret.Computed = true ∧ secret.Sensitive = true ∧
      secret.Required = false ∧ secret.Optional = false) ∧
    (resourceScalewayCockpitTokenRead h d meta s).d.secret_key = d.secret_key ∧
    (resourceScalewayCockpitTokenDelete h d meta s).d.secret_key = d.secret_key ∧
    ((resourceScalewayCockpitTokenCreate h d meta s).d.secret_key = d.secret_key ∨
      ∃ api res s1, h.cockpitAPI meta = .ok api ∧
        api.CreateToken { Name := d.name, Scopes := h.expandCockpitTokenScopes d.scopes,
                          ProjectID := d.project_id } s = (.ok res, s1) ∧
        (resourceScalewayCockpitTokenCreate h d meta s).d.secret_key = res.SecretKey) := by
  have hread : ∀ (d0 : ResourceData) (s0 : σ),
      (resourceScalewayCockpitTokenRead h d0 meta s0).d.secret_key = d0.secret_key := by
    intro d0 s0
    rcases read_cases h d0 meta s0 with ⟨err, -, -, hd, -⟩ | ⟨api, err, s1, -, -, -, -, hd, -⟩ |
      ⟨api, err, s1, -, -, -, -, hd, -⟩ | ⟨api, res, s1, -, -, -, hd, -⟩ <;> rw [hd]
  refine ⟨⟨_, rfl, rfl, rfl, rfl, rfl⟩, ⟨_, rfl, rfl, rfl, rfl, rfl, rfl⟩, hread d s, ?_, ?_⟩
  · rcases delete_cases h d meta s with ⟨err, -, -, hd, -⟩ | ⟨api, err, s1, -, -, -, hd, -⟩ |
      ⟨api, s1, -, -, -, hd, -⟩ <;> rw [hd]
  · rcases create_cases h d meta s with ⟨err, -, -, hd, -⟩ | ⟨api, err, s1, -, -, -, hd, -⟩ |
      ⟨api, res, s1, hapi, hcr, -, hd, -⟩
    · left; rw [hd]
    · left; rw [hd]
    · right
      exact ⟨api, res, s1, hapi, hcr, by rw [hd, hread]⟩

/-- C9, as stated, fails for delete: when the API client cannot be obtained the
delete handler returns before any vendor call, so it issues no `DeleteToken`
rather than exactly one. -/
theorem delete_without_client_calls_nothing :
    (resourceScalewayCockpitTokenDelete memoryHelpers createdToken false [heldToken]).calls = [] ∧
    ¬ ((resourceScalewayCockpitTokenDelete memoryHelpers createdToken false
          [heldToken]).calls.countP Call.isDeleteToken = 1) := by
  decide

/-- C9, amended: no cockpit-token handler retries a vendor call. In every
execution, whether calls succeed or fail: create issues at most one
`CreateToken`, at most one `GetToken` and no `DeleteToken`; read issues only
`GetToken`, exactly one once the API client is obtained and no call when it is
not; delete issues only `DeleteToken`, exactly one once the API client is
obtained and no call when it is not. -/
theorem handlers_do_not_retry {Meta σ : Type} (h : Helpers Meta σ) (d : ResourceData)
    (meta : Meta) (s : σ) :
    ((resourceScalewayCockpitTokenCreate h d meta s).calls.countP Call.isCreateToken ≤ 1 ∧
     (resourceScalewayCockpitTokenCreate h d meta s).calls.countP Call.isGetToken ≤ 1 ∧
     (resourceScalewayCockpitTokenCreate h d meta s).calls.countP Call.isDeleteToken = 0) ∧
    ((resourceScalewayCockpitTokenRead h d meta s).calls.countP Call.isCreateToken = 0 ∧
     (resourceScalewayCockpitTokenRead h d meta s).calls.countP Call.isDeleteToken = 0 ∧
     (∀ api, h.cockpitAPI meta = .ok api →
        (resourceScalewayCockpitTokenRead h d meta s).calls.countP Call.isGetToken = 1) ∧
     (∀ err, h.cockpitAPI meta = .error err →
        (resourceScalewayCockpitTokenRead h d meta s).calls = [])) ∧
    ((resourceScalewayCockpitTokenDelete h d meta s).calls.countP Call.isCreateToken = 0 ∧
     (resourceScalewayCockpitTokenDelete h d meta s).calls.countP Call.isGetToken = 0 ∧
     (∀ api, h.cockpitAPI meta = .ok api →
        (resourceScalewayCockpitTokenDelete h d meta s).calls.countP Call.isDeleteToken = 1) ∧
     (∀ err, h.cockpitAPI meta = .error err →
        (resourceScalewayCockpitTokenDelete h d meta s).calls = [])) := by
  have hread : ∀ (d0 : ResourceData) (s0 : σ),
      (resourceScalewayCockpitTokenRead h d0 meta s0).calls.countP Call.isCreateToken = 0 ∧
      (resourceScalewayCockpitTokenRead h d0 meta s0).calls.countP Call.isDeleteToken = 0 ∧
      (resourceScalewayCockpitTokenRead h d0 meta s0).calls.countP Call.isGetToken ≤ 1 ∧
      (∀ api, h.cockpitAPI meta = .ok api →
        (resourceScalewayCockpitTokenRead h d0 meta s0).calls.countP Call.isGetToken = 1) ∧
      (∀ err, h.cockpitAPI meta = .error err →
        (resourceScalewayCockpitTokenRead h d0 meta s0).calls = []) := by
    intro d0 s0
    rcases read_cases h d0 meta s0 with ⟨err, ha, -, -, hc⟩ | ⟨api, err, s1, ha, -, -, -, -, hc⟩ |
      ⟨api, err, s1, ha, -, -, -, -, hc⟩ | ⟨api, res, s1, ha, -, -, -, hc⟩ <;>
    simp [hc, ha, Call.isCreateToken, Call.isGetToken, Call.isDeleteToken]
  refine ⟨?_, ?_, ?_⟩
  · rcases create_cases h d meta s with ⟨err, -, -, -, hc⟩ | ⟨api, err, s1, -, -, -, -, hc⟩ |
      ⟨api, res, s1, -, -, -, -, hc⟩
    · simp [hc]
    · simp [hc, Call.isCreateToken, Call.isGetToken, Call.isDeleteToken]
    · obtain ⟨h1, h2, h3, -, -⟩ := hread { d with secret_key := res.SecretKey, id := res.ID } s1
      rw [hc]
      simp only [List.countP_cons, Call.isCreateToken, Call.isGetToken, Call.isDeleteToken, h1, h2]
      simpa using h3
  · obtain ⟨h1, h2, -, h4, h5⟩ := hread d s
    exact ⟨h1, h2, h4, h5⟩
  · rcases delete_cases h d meta s with ⟨err, ha, -, -, hc⟩ | ⟨api, err, s1, ha, -, -, -, hc⟩ |
      ⟨api, s1, ha, -, -, -, hc⟩ <;>
    simp [hc, ha, Call.isCreateToken, Call.isGetToken, Call.isDeleteToken]

/-- C10: when the API client is obtained and `GetToken` succeeds with `res`,
`resourceScalewayCockpitTokenRead` issues one `GetToken` for the current id of
the data, sets `name = res.Name`, `scopes` to the flattening of `res.Scopes`
and `project_id = res.ProjectID`, returns no diagnostics, and leaves the
resource id and `secret_key` as they were. -/
theorem read_success {Meta σ : Type} (h : Helpers Meta σ) (d : ResourceData) (meta : Meta)
    (s s1 : σ) (api : API σ) (res : Token)
    (hapi : h.cockpitAPI meta = .ok api)
    (hget : api.GetToken { TokenID := d.id } s = (.ok res, s1)) :
    (resourceScalewayCockpitTokenRead h d meta s).calls
      = [.GetToken { TokenID := d.id } none] ∧
    (resourceScalewayCockpitTokenRead h d meta s).d.name = res.Name ∧
    (resourceScalewayCockpitTokenRead h d meta s).d.scopes
      = h.flattenCockpitTokenScopes res.Scopes ∧
    (resourceScalewayCockpitTokenRead h d meta s).d.project_id = res.ProjectID ∧
    (resourceScalewayCockpitTokenRead h d meta s).diags = [] ∧
    (resourceScalewayCockpitTokenRead h d meta s).d.id = d.id ∧
    (resourceScalewayCockpitTokenRead h d meta s).d.secret_key = d.secret_key := by
  simp [resourceScalewayCockpitTokenRead, hapi, ResourceData.Id, ResourceData.Set, hget]

/-- C10 on the in-memory vendor: reading a created token whose name was
changed on the vendor's side. -/
theorem read_success_witness :
    (resourceScalewayCockpitTokenRead memoryHelpers createdToken true
        [{ heldToken with Name := "renamed" }]).calls
      = [.GetToken { TokenID := "id-of-my-token" } none] ∧
    (resourceScalewayCockpitTokenRead memoryHelpers createdToken true
        [{ heldToken with Name := "renamed" }]).d.name = "renamed" ∧
    (resourceScalewayCockpitTokenRead memoryHelpers createdToken true
        [{ heldToken with Name := "renamed" }]).d.scopes = [defaultScopes] ∧
    (resourceScalewayCockpitTokenRead memoryHelpers createdToken true
        [{ heldToken with Name := "renamed" }]).d.project_id = "project-1" ∧
    (resourceScalewayCockpitTokenRead memoryHelpers createdToken true
        [{ heldToken with Name := "renamed" }]).diags = [] ∧
    (resourceScalewayCockpitTokenRead memoryHelpers createdToken true
        [{ heldToken with Name := "renamed" }]).d.id = "id-of-my-token" ∧
    (resourceScalewayCockpitTokenRead memoryHelpers createdToken true
        [{ heldToken with Name := "renamed" }]).d.secret_key = some "secret-of-my-token" :=
  read_success memoryHelpers createdToken true [{ heldToken with Name := "renamed" }]
    [{ heldToken with Name := "renamed" }] memoryAPI { heldToken with Name := "renamed" } rfl rfl

/-- C11: if the cockpit API client cannot be obtained, or `CreateToken` fails,
with error `err`, then `resourceScalewayCockpitTokenCreate` returns the error
diagnostic of `err`, issues no `GetToken`, and leaves the resource data
untouched: in particular the id and `secret_key` are the ones it was given. -/
theorem create_failure_leaves_data {Meta σ : Type} (h : Helpers Meta σ) (d : ResourceData)
    (meta : Meta) (s : σ) (err : GoError)
    (hfail : h.cockpitAPI meta = .error err ∨
      ∃ api s1, h.cockpitAPI meta = .ok api ∧
        api.CreateToken { Name := d.name, Scopes := h.expandCockpitTokenScopes d.scopes,
                          ProjectID := d.project_id } s = (.error err, s1)) :
    (resourceScalewayCockpitTokenCreate h d meta s).diags
      = [{ Severity := .Error, Summary := err.message }] ∧
    (resourceScalewayCockpitTokenCreate h d meta s).calls.countP Call.isGetToken = 0 ∧
    (resourceScalewayCockpitTokenCreate h d meta s).d = d ∧
    (resourceScalewayCockpitTokenCreate h d meta s).d.id = d.id ∧
    (resourceScalewayCockpitTokenCreate h d meta s).d.secret_key = d.secret_key := by
  rcases hfail with hapi | ⟨api, s1, hapi, hcreate⟩
  · simp [resourceScalewayCockpitTokenCreate, hapi, FromErr]
  · simp [resourceScalewayCockpitTokenCreate, hapi, hcreate, FromErr, Call.isGetToken]

/-- C11 on the in-memory vendor: a meta without API client, and a creation the
vendor refuses. -/
theorem create_failure_leaves_data_witness :
    ((resourceScalewayCockpitTokenCreate memoryHelpers plannedToken false []).diags
        = [{ Severity := .Error, Summary := "meta: unexpected type" }] ∧
      (resourceScalewayCockpitTokenCreate memoryHelpers plannedToken false []).calls.countP
        Call.isGetToken = 0 ∧
      (resourceScalewayCockpitTokenCreate memoryHelpers plannedToken false []).d = plannedToken ∧
      (resourceScalewayCockpitTokenCreate memoryHelpers plannedToken false []).d.id = "" ∧
      (resourceScalewayCockpitTokenCreate memoryHelpers plannedToken false []).d.secret_key
        = none) ∧
    (resourceScalewayCockpitTokenCreate memoryHelpers { plannedToken with name := "" } true
        []).diags = [{ Severity := .Error, Summary := permissionDenied.message }] :=
  ⟨create_failure_leaves_data memoryHelpers plannedToken false []
      { message := "meta: unexpected type" } (Or.inl rfl),
    (create_failure_leaves_data memoryHelpers { plannedToken with name := "" } true []
      permissionDenied (Or.inr ⟨memoryAPI, [], rfl, rfl⟩)).1⟩

/-- C12: if `CreateToken` succeeds with `res` and the `GetToken` that follows
fails with `err`, `resourceScalewayCockpitTokenCreate` keeps
`secret_key = res.SecretKey` and ends as the read does: when `err` is
classified as not found it returns no diagnostics and the resource id is the
empty string; otherwise it returns the error diagnostic of `err` and the
resource id is `res.ID`. -/
theorem create_then_failed_read {Meta σ : Type} (h : Helpers Meta σ) (d : ResourceData)
    (meta : Meta) (s s1 s2 : σ) (api : API σ) (res : Token) (err : GoError)
    (hapi : h.cockpitAPI meta = .ok api)
    (hcreate : api.CreateToken { Name := d.name, Scopes := h.expandCockpitTokenScopes d.scopes,
                                 ProjectID := d.project_id } s = (.ok res, s1))
    (hget : api.GetToken { TokenID := res.ID } s1 = (.error err, s2)) :
    (resourceScalewayCockpitTokenCreate h d meta s).d.secret_key = res.SecretKey ∧
    (h.is404Error err = true →
      (resourceScalewayCockpitTokenCreate h d meta s).diags = [] ∧
      (resourceScalewayCockpitTokenCreate h d meta s).d.id = "") ∧
    (h.is404Error err = false →
      (resourceScalewayCockpitTokenCreate h d meta s).diags
        = [{ Severity := .Error, Summary := err.message }] ∧
      (resourceScalewayCockpitTokenCreate h d meta s).d.id = res.ID) := by
  by_cases h404 : h.is404Error err = true
  · simp [resourceScalewayCockpitTokenCreate, resourceScalewayCockpitTokenRead, hapi, hcreate,
      ResourceData.Id, ResourceData.Set, ResourceData.SetId, hget, h404]
  · have h404f : h.is404Error err = false := by simpa using h404
    simp [resourceScalewayCockpitTokenCreate, resourceScalewayCockpitTokenRead, hapi, hcreate,
      ResourceData.Id, ResourceData.Set, ResourceData.SetId, hget, h404f, FromErr]

/-- C12 on the lagging vendor: the token is created, the read that follows
does not find it, and the create handler returns no diagnostics with an empty
id and the new secret key. -/
theorem create_then_failed_read_witness :
    (resourceScalewayCockpitTokenCreate laggingHelpers plannedToken true []).d.secret_key
      = some "secret-of-my-token" ∧
    (resourceScalewayCockpitTokenCreate laggingHelpers plannedToken true []).diags = [] ∧
    (resourceScalewayCockpitTokenCreate laggingHelpers plannedToken true []).d.id = "" :=
  have key := create_then_failed_read laggingHelpers plannedToken true [] [] [] laggingAPI
    { heldToken with SecretKey := some "secret-of-my-token" } tokenNotFound rfl rfl rfl
  ⟨key.1, key.2.1 rfl⟩

/-- C13: the cockpit-token resource defines create, read and delete handlers
and no update handler, and every field of its schema literal that a user can
set has `ForceNew = true`: `name`, `scopes`, and each of the seven fields of
the scopes block (`secret_key`, the one field that is neither required nor
optional, has not). -/
theorem cockpitToken_immutable (defaultCockpitTimeout : Nat) (projectIDSchema : Schema) :
    (resourceScalewayCockpitToken defaultCockpitTimeout projectIDSchema).CreateContext
      = some .resourceScalewayCockpitTokenCreate ∧
    (resourceScalewayCockpitToken defaultCockpitTimeout projectIDSchema).ReadContext
      = some .resourceScalewayCockpitTokenRead ∧
    (resourceScalewayCockpitToken defaultCockpitTimeout projectIDSchema).DeleteContext
      = some .resourceScalewayCockpitTokenDelete ∧
    (resourceScalewayCockpitToken defaultCockpitTimeout projectIDSchema).UpdateContext = none ∧
    ((resourceScalewayCockpitToken defaultCockpitTimeout projectIDSchema).Schema.filter
        (fun f => f.1 != "project_id")).map
        (fun f => (f.1, f.2.Required || f.2.Optional, f.2.ForceNew)) =
      [("name", true, true), ("scopes", true, true), ("secret_key", false, false)] ∧
    (∃ scopes,
      (resourceScalewayCockpitToken defaultCockpitTimeout projectIDSchema).field "scopes"
        = some scopes ∧
      scopes.elemFields.map (fun f => (f.1, f.2.Required || f.2.Optional, f.2.ForceNew)) =
        [ ("query_metrics", true, true), ("write_metrics", true, true),
          ("setup_metrics_rules", true, true), ("query_logs", true, true),
          ("write_logs", true, true), ("setup_logs_rules", true, true),
          ("setup_alerts", true, true) ]) :=
  ⟨rfl, rfl, rfl, rfl, by simp [resourceScalewayCockpitToken], _, rfl, by decide⟩

/-! ## Theorems: sweepers and destroy checks -/

/-- When every call of the loop of `testSweepLB` succeeds, the loop returns
nil after a wait and a deletion for each load balancer, in list order. -/
theorem testSweepLBLoop_all_ok {Client σ : Type} (env : SweepLBEnv Client σ)
    (lbAPI : ZonedAPI σ) (zone : Zone) (lbs : List LB) (s : σ)
    (hok : ∀ c ∈ (testSweepLBLoop env lbAPI zone lbs s).calls, c.err = none) :
    (testSweepLBLoop env lbAPI zone lbs s).err = none ∧
    (testSweepLBLoop env lbAPI zone lbs s).calls = lbs.flatMap (sweptLBCalls env zone) := by
  induction lbs generalizing s with
  | nil => simp [testSweepLBLoop]
  | cons l rest ih =>
    have hretry : (match env.DefaultWaitRetryInterval with
        | some v => v
        | none => env.defaultWaitLBRetryInterval)
        = env.DefaultWaitRetryInterval.getD env.defaultWaitLBRetryInterval := by
      cases env.DefaultWaitRetryInterval <;> rfl
    unfold testSweepLBLoop at hok ⊢
    simp only [hretry] at hok ⊢
    split at hok
    · simp [LBCall.err] at hok
    · split at hok
      · simp [LBCall.err] at hok
      · rename_i s2 _
        have hrest : ∀ c ∈ (testSweepLBLoop env lbAPI zone rest s2).calls, c.err = none := by
          intro c hc
          exact hok c (by simp [hc])
        obtain ⟨h1, h2⟩ := ih s2 hrest
        simp [h1, h2, List.flatMap_cons, sweptLBCalls]

/-- C14: `testSweepLB` hands `sweepZones` exactly the zones `fr-par-1`,
`nl-ams-1`, `pl-waw-1` and its callback; and for any zone, when `ListLBs`
succeeds with the list `lbs` and every call the callback issues succeeds, the
callback issues, after the listing and in list order, for each load balancer a
`WaitForLbInstances` on its id in that zone followed by one `DeleteLB` on the
same id with that zone and `ReleaseIP = true`, nothing else, and returns nil. -/
theorem testSweepLB_deletes_listed {Client σ R : Type} (env : SweepLBEnv Client σ)
    (sweepZones : List Zone → (Client → Zone → σ → Run σ LBCall) → R) (region : String)
    (scwClient : Client) (zone : Zone) (s s1 : σ) (lbs : List LB)
    (hlist : (env.NewZonedAPI scwClient).ListLBs { Zone := zone } s = (.ok { LBs := lbs }, s1))
    (hok : ∀ c ∈ (testSweepLBCallback env scwClient zone s).calls, c.err = none) :
    testSweepLB env sweepZones region
      = sweepZones ["fr-par-1", "nl-ams-1", "pl-waw-1"] (testSweepLBCallback env) ∧
    (testSweepLBCallback env scwClient zone s).calls =
      .ListLBs { Zone := zone } none ::
        lbs.flatMap (fun l =>
          [ .WaitForLbInstances
              { Zone := zone, LBID := l.ID,
                Timeout := some env.defaultInstanceServerWaitTimeout,
                RetryInterval :=
                  some (env.DefaultWaitRetryInterval.getD env.defaultWaitLBRetryInterval) }
              none,
            .DeleteLB { LBID := l.ID, ReleaseIP := true, Zone := zone } none ]) ∧
    (testSweepLBCallback env scwClient zone s).err = none := by
  have hcb : testSweepLBCallback env scwClient zone s =
      { testSweepLBLoop env (env.NewZonedAPI scwClient) zone lbs s1 with
        calls := .ListLBs { Zone := zone } none ::
          (testSweepLBLoop env (env.NewZonedAPI scwClient) zone lbs s1).calls } := by
    simp [testSweepLBCallback, hlist]
  rw [hcb] at hok ⊢
  have hloop : ∀ c ∈ (testSweepLBLoop env (env.NewZonedAPI scwClient) zone lbs s1).calls,
      c.err = none := by
    intro c hc
    exact hok c (by simp [hc])
  obtain ⟨h1, h2⟩ := testSweepLBLoop_all_ok env (env.NewZonedAPI scwClient) zone lbs s1 hloop
  refine ⟨rfl, ?_, h1⟩
  simp only [h2]
  rfl

/-- C14 on the in-memory vendor: sweeping `fr-par-1` deletes its two load
balancers, in list order, each after a wait, and leaves the one of
`nl-ams-1`. -/
theorem testSweepLB_deletes_listed_witness :
    (testSweepLBCallback memorySweepLBEnv () "fr-par-1" leftoverLBs).calls =
      [ .ListLBs { Zone := "fr-par-1" } none,
        .WaitForLbInstances
          { Zone := "fr-par-1", LBID := "lb-a", Timeout := some 600, RetryInterval := some 1 }
          none,
        .DeleteLB { LBID := "lb-a", ReleaseIP := true, Zone := "fr-par-1" } none,
        .WaitForLbInstances
          { Zone := "fr-par-1", LBID := "lb-c", Timeout := some 600, RetryInterval := some 1 }
          none,
        .DeleteLB { LBID := "lb-c", ReleaseIP := true, Zone := "fr-par-1" } none ] ∧
    (testSweepLBCallback memorySweepLBEnv () "fr-par-1" leftoverLBs).err = none ∧
    (testSweepLBCallback memorySweepLBEnv () "fr-par-1" leftoverLBs).vendor
      = [("nl-ams-1", { ID := "lb-b" })] :=
  ⟨(testSweepLB_deletes_listed memorySweepLBEnv (fun zones _ => zones) "" () "fr-par-1"
      leftoverLBs leftoverLBs [{ ID := "lb-a" }, { ID := "lb-c" }] rfl (by decide)).2.1,
    (testSweepLB_deletes_listed memorySweepLBEnv (fun zones _ => zones) "" () "fr-par-1"
      leftoverLBs leftoverLBs [{ ID := "lb-a" }, { ID := "lb-c" }] rfl (by decide)).2.2,
    by decide⟩

/-- The load-balancer destroy check has the property of C15, for every list of
resources and every vendor state. -/
theorem lbDestroy_checked {M σ : Type} (env : LbCheckEnv M σ) (tt : TestTools M)
    (resources : RootResources) (s : σ) :
    LbDestroyChecked env tt resources (testAccCheckScalewayLbDestroy env tt resources s) := by
  induction resources generalizing s with
  | nil => simp [LbDestroyChecked, testAccCheckScalewayLbDestroy]
  | cons rs rest ih =>
    by_cases hty : rs.Typ = "scaleway_lb"
    · have hfilter : (rs :: rest).filter (fun rs => rs.Typ == "scaleway_lb")
          = rs :: rest.filter (fun rs => rs.Typ == "scaleway_lb") := by
        simp [List.filter_cons, hty]
      cases hres : env.lbAPIWithZoneAndID tt.Meta rs.PrimaryID with
      | error e =>
        have hrun : testAccCheckScalewayLbDestroy env tt (rs :: rest) s
            = { err := some e, vendor := s, calls := [] } := by
          simp [testAccCheckScalewayLbDestroy, hty, hres]
        rw [hrun]
        refine ⟨⟨fun h => by simp at h, fun h => ?_⟩, by simp, by simp⟩
        obtain ⟨v, hv⟩ := h.1 rs (by rw [hfilter]; exact List.mem_cons_self _ _)
        rw [hres] at hv
        cases hv
      | ok v =>
        obtain ⟨lbAPI, zone, ID⟩ := v
        rcases hget : lbAPI.GetLB (ZonedAPIGetLBRequest.mk zone ID) s with ⟨res, s1⟩
        cases res with
        | ok lb =>
          have hrun : testAccCheckScalewayLbDestroy env tt (rs :: rest) s
              = { err := some
                    { message := "load Balancer (" ++ rs.PrimaryID ++ ") still exists" },
                  vendor := s1, calls := [.GetLB { Zone := zone, LBID := ID } none] } := by
            simp [testAccCheckScalewayLbDestroy, hty, hres, hget]
          rw [hrun]
          refine ⟨⟨fun h => by simp at h, fun h => ?_⟩, ?_, by simp [LBCall.err]⟩
          · obtain ⟨e, he, -⟩ := h.2.2 _ (List.mem_singleton.mpr rfl)
            simp [LBCall.err] at he
          · intro c hc
            rw [List.mem_singleton.mp hc]
            exact ⟨rs, List.mem_cons_self _ _, hty, lbAPI, zone, ID, hres, rfl, fun _ => rfl⟩
        | error e =>
          by_cases h404 : env.is404Error e = true
          · have hrun : testAccCheckScalewayLbDestroy env tt (rs :: rest) s
                = { testAccCheckScalewayLbDestroy env tt rest s1 with
                    calls := .GetLB { Zone := zone, LBID := ID } (some e) ::
                      (testAccCheckScalewayLbDestroy env tt rest s1).calls } := by
              simp [testAccCheckScalewayLbDestroy, hty, hres, hget, h404]
            obtain ⟨ih1, ih2, ih3⟩ := ih s1
            rw [hrun]
            refine ⟨?_, ?_, ?_⟩
            · simp only [hfilter, List.length_cons, List.mem_cons, forall_eq_or_imp,
                Nat.add_right_cancel_iff]
              rw [ih1]
              constructor
              · rintro ⟨ha, hb, hc⟩
                exact ⟨⟨⟨_, hres⟩, ha⟩, hb, ⟨e, rfl, h404⟩, hc⟩
              · rintro ⟨⟨-, ha⟩, hb, -, hc⟩
                exact ⟨ha, hb, hc⟩
            · intro c hc
              rcases List.mem_cons.mp hc with rfl | hc
              · exact ⟨rs, List.mem_cons_self _ _, hty, lbAPI, zone, ID, hres, rfl,
                  fun h => by simp [LBCall.err] at h⟩
              · obtain ⟨rs2, hmem, hrest⟩ := ih2 c hc
                exact ⟨rs2, List.mem_cons_of_mem _ hmem, hrest⟩
            · intro c hc e2 he2 hnot
              rcases List.mem_cons.mp hc with rfl | hc
              · simp only [LBCall.err, Option.some.injEq] at he2
                subst he2
                rw [h404] at hnot
                cases hnot
              · exact ih3 c hc e2 he2 hnot
          · have h404f : env.is404Error e = false := by simpa using h404
            have hrun : testAccCheckScalewayLbDestroy env tt (rs :: rest) s
                = { err := some e, vendor := s1,
                    calls := [.GetLB { Zone := zone, LBID := ID } (some e)] } := by
              simp [testAccCheckScalewayLbDestroy, hty, hres, hget, h404f]
            rw [hrun]
            refine ⟨⟨fun h => by simp at h, fun h => ?_⟩, ?_, ?_⟩
            · obtain ⟨e2, he2, h2⟩ := h.2.2 _ (List.mem_singleton.mpr rfl)
              simp only [LBCall.err, Option.some.injEq] at he2
              subst he2
              rw [h404f] at h2
              cases h2
            · intro c hc
              rw [List.mem_singleton.mp hc]
              exact ⟨rs, List.mem_cons_self _ _, hty, lbAPI, zone, ID, hres, rfl,
                fun h => by simp [LBCall.err] at h⟩
            · intro c hc e2 he2 _
              rw [List.mem_singleton.mp hc] at he2
              simp only [LBCall.err, Option.some.injEq] at he2
              simp [he2]
    · have hfilter : (rs :: rest).filter (fun rs => rs.Typ == "scaleway_lb")
          = rest.filter (fun rs => rs.Typ == "scaleway_lb") := by
        simp [List.filter_cons, hty]
      have hrun : testAccCheckScalewayLbDestroy env tt (rs :: rest) s
          = testAccCheckScalewayLbDestroy env tt rest s := by
        simp [testAccCheckScalewayLbDestroy, hty]
      obtain ⟨ih1, ih2, ih3⟩ := ih s
      rw [hrun]
      refine ⟨?_, ?_, ih3⟩
      · rw [hfilter]
        exact ih1
      · intro c hc
        obtain ⟨rs2, hmem, hrest⟩ := ih2 c hc
        exact ⟨rs2, List.mem_cons_of_mem _ hmem, hrest⟩

/-- The bare-metal destroy check has the property of C15, for every list of
resources and every vendor state. -/
theorem baremetalDestroy_checked {M σ : Type} (env : BaremetalCheckEnv M σ)
    (resources : RootResources) (s : σ) :
    BaremetalDestroyChecked env resources
      (testAccCheckScalewayBaremetalServerDestroy env resources s) := by
  induction resources generalizing s with
  | nil => simp [BaremetalDestroyChecked, testAccCheckScalewayBaremetalServerDestroy]
  | cons rs rest ih =>
    by_cases hty : rs.Typ = "scaleway_baremetal_server"
    · have hfilter : (rs :: rest).filter (fun rs => rs.Typ == "scaleway_baremetal_server")
          = rs :: rest.filter (fun rs => rs.Typ == "scaleway_baremetal_server") := by
        simp [List.filter_cons, hty]
      cases hres : env.baremetalAPIWithZoneAndID env.testAccProviderMeta rs.PrimaryID with
      | error e =>
        have hrun : testAccCheckScalewayBaremetalServerDestroy env (rs :: rest) s
            = { err := some e, vendor := s, calls := [] } := by
          simp [testAccCheckScalewayBaremetalServerDestroy, hty, hres]
        rw [hrun]
        refine ⟨⟨fun h => by simp at h, fun h => ?_⟩, by simp, by simp⟩
        obtain ⟨v, hv⟩ := h.1 rs (by rw [hfilter]; exact List.mem_cons_self _ _)
        rw [hres] at hv
        cases hv
      | ok v =>
        obtain ⟨baremetalAPI, zonedId⟩ := v
        rcases hget : baremetalAPI.GetServer (GetServerRequest.mk zonedId.ID zonedId.Zone) s
          with ⟨res, s1⟩
        cases res with
        | ok lb =>
          have hrun : testAccCheckScalewayBaremetalServerDestroy env (rs :: rest) s
              = { err := some
                    { message := "server (" ++ rs.PrimaryID ++ ") still exists" },
                  vendor := s1, calls := [.GetServer { ServerID := zonedId.ID, Zone := zonedId.Zone } none] } := by
            simp [testAccCheckScalewayBaremetalServerDestroy, hty, hres, hget]
          rw [hrun]
          refine ⟨⟨fun h => by simp at h, fun h => ?_⟩, ?_, by simp [BaremetalCall.err]⟩
          · obtain ⟨e, he, -⟩ := h.2.2 _ (List.mem_singleton.mpr rfl)
            simp [BaremetalCall.err] at he
          · intro c hc
            rw [List.mem_singleton.mp hc]
            exact ⟨rs, List.mem_cons_self _ _, hty, baremetalAPI, zonedId, hres, rfl, fun _ => rfl⟩
        | error e =>
          by_cases h404 : env.is404Error e = true
          · have hrun : testAccCheckScalewayBaremetalServerDestroy env (rs :: rest) s
                = { testAccCheckScalewayBaremetalServerDestroy env rest s1 with
                    calls := .GetServer { ServerID := zonedId.ID, Zone := zonedId.Zone } (some e) ::
                      (testAccCheckScalewayBaremetalServerDestroy env rest s1).calls } := by
              simp [testAccCheckScalewayBaremetalServerDestroy, hty, hres, hget, h404]
            obtain ⟨ih1, ih2, ih3⟩ := ih s1
            rw [hrun]
            refine ⟨?_, ?_, ?_⟩
            · simp only [hfilter, List.length_cons, List.mem_cons, forall_eq_or_imp,
                Nat.add_right_cancel_iff]
              rw [ih1]
              constructor
              · rintro ⟨ha, hb, hc⟩
                exact ⟨⟨⟨_, hres⟩, ha⟩, hb, ⟨e, rfl, h404⟩, hc⟩
              · rintro ⟨⟨-, ha⟩, hb, -, hc⟩
                exact ⟨ha, hb, hc⟩
            · intro c hc
              rcases List.mem_cons.mp hc with rfl | hc
              · exact ⟨rs, List.mem_cons_self _ _, hty, baremetalAPI, zonedId, hres, rfl,
                  fun h => by simp [BaremetalCall.err] at h⟩
              · obtain ⟨rs2, hmem, hrest⟩ := ih2 c hc
                exact ⟨rs2, List.mem_cons_of_mem _ hmem, hrest⟩
            · intro c hc e2 he2 hnot
              rcases List.mem_cons.mp hc with rfl | hc
              · simp only [BaremetalCall.err, Option.some.injEq] at he2
                subst he2
                rw [h404] at hnot
                cases hnot
              · exact ih3 c hc e2 he2 hnot
          · have h404f : env.is404Error e = false := by simpa using h404
            have hrun : testAccCheckScalewayBaremetalServerDestroy env (rs :: rest) s
                = { err := some e, vendor := s1,
                    calls := [.GetServer { ServerID := zonedId.ID, Zone := zonedId.Zone } (some e)] } := by
              simp [testAccCheckScalewayBaremetalServerDestroy, hty, hres, hget, h404f]
            rw [hrun]
            refine ⟨⟨fun h => by simp at h, fun h => ?_⟩, ?_, ?_⟩
            · obtain ⟨e2, he2, h2⟩ := h.2.2 _ (List.mem_singleton.mpr rfl)
              simp only [BaremetalCall.err, Option.some.injEq] at he2
              subst he2
              rw [h404f] at h2
              cases h2
            · intro c hc
              rw [List.mem_singleton.mp hc]
              exact ⟨rs, List.mem_cons_self _ _, hty, baremetalAPI, zonedId, hres, rfl,
                fun h => by simp [BaremetalCall.err] at h⟩
            · intro c hc e2 he2 _
              rw [List.mem_singleton.mp hc] at he2
              simp only [BaremetalCall.err, Option.some.injEq] at he2
              simp [he2]
    · have hfilter : (rs :: rest).filter (fun rs => rs.Typ == "scaleway_baremetal_server")
          = rest.filter (fun rs => rs.Typ == "scaleway_baremetal_server") := by
        simp [List.filter_cons, hty]
      have hrun : testAccCheckScalewayBaremetalServerDestroy env (rs :: rest) s
          = testAccCheckScalewayBaremetalServerDestroy env rest s := by
        simp [testAccCheckScalewayBaremetalServerDestroy, hty]
      obtain ⟨ih1, ih2, ih3⟩ := ih s
      rw [hrun]
      refine ⟨?_, ?_, ih3⟩
      · rw [hfilter]
        exact ih1
      · intro c hc
        obtain ⟨rs2, hmem, hrest⟩ := ih2 c hc
        exact ⟨rs2, List.mem_cons_of_mem _ hmem, hrest⟩

/-- The load-balancer check skips the resources of other types: it runs as on
the load balancers alone. -/
theorem lbDestroy_filter {M σ : Type} (env : LbCheckEnv M σ) (tt : TestTools M)
    (resources : RootResources) (s : σ) :
    testAccCheckScalewayLbDestroy env tt resources s
      = testAccCheckScalewayLbDestroy env tt
          (resources.filter (fun rs => rs.Typ == "scaleway_lb")) s := by
  induction resources generalizing s with
  | nil => rfl
  | cons rs rest ih =>
    by_cases hty : rs.Typ = "scaleway_lb"
    · have hfilter : (rs :: rest).filter (fun rs => rs.Typ == "scaleway_lb")
          = rs :: rest.filter (fun rs => rs.Typ == "scaleway_lb") := by
        simp [List.filter_cons, hty]
      rw [hfilter]
      simp only [testAccCheckScalewayLbDestroy, ih]
    · have hfilter : (rs :: rest).filter (fun rs => rs.Typ == "scaleway_lb")
          = rest.filter (fun rs => rs.Typ == "scaleway_lb") := by
        simp [List.filter_cons, hty]
      rw [hfilter, ← ih]
      simp [testAccCheckScalewayLbDestroy, hty]

/-- After a load balancer that is gone, the check returns what it returns on
the remaining resources. -/
theorem lbDestroy_step {M σ : Type} (env : LbCheckEnv M σ) (tt : TestTools M)
    (rs : ResourceState) (rest : RootResources) (s s1 : σ) (lbAPI : ZonedAPI σ) (zone : Zone)
    (ID : String) (e : GoError) (hty : rs.Typ = "scaleway_lb")
    (hres : env.lbAPIWithZoneAndID tt.Meta rs.PrimaryID = .ok (lbAPI, zone, ID))
    (hget : lbAPI.GetLB { Zone := zone, LBID := ID } s = (.error e, s1))
    (h404 : env.is404Error e = true) :
    (testAccCheckScalewayLbDestroy env tt (rs :: rest) s).err
      = (testAccCheckScalewayLbDestroy env tt rest s1).err := by
  simp [testAccCheckScalewayLbDestroy, hty, hres, hget, h404]

/-- On load balancers alone, the check returns nil exactly when all are gone. -/
theorem lbDestroy_nil_iff {M σ : Type} (env : LbCheckEnv M σ) (tt : TestTools M)
    (lbs : RootResources) (s : σ) (hty : ∀ rs ∈ lbs, rs.Typ = "scaleway_lb") :
    (testAccCheckScalewayLbDestroy env tt lbs s).err = none ↔
      ∃ s', LbAllGone env tt lbs s s' := by
  induction lbs generalizing s with
  | nil => simp [testAccCheckScalewayLbDestroy, LbAllGone]
  | cons rs rest ih =>
    have hrs : rs.Typ = "scaleway_lb" := hty rs (List.mem_cons_self _ _)
    have hrest : ∀ x ∈ rest, x.Typ = "scaleway_lb" :=
      fun x hx => hty x (List.mem_cons_of_mem _ hx)
    cases hres : env.lbAPIWithZoneAndID tt.Meta rs.PrimaryID with
    | error e =>
      constructor
      · intro h
        simp [testAccCheckScalewayLbDestroy, hrs, hres] at h
      · rintro ⟨s', lbAPI, zone, ID, e2, s1, hres2, -⟩
        rw [hres] at hres2
        cases hres2
    | ok v =>
      obtain ⟨lbAPI, zone, ID⟩ := v
      rcases hget : lbAPI.GetLB (ZonedAPIGetLBRequest.mk zone ID) s with ⟨res, s1⟩
      cases res with
      | ok lb =>
        constructor
        · intro h
          simp [testAccCheckScalewayLbDestroy, hrs, hres, hget] at h
        · rintro ⟨s', lbAPI2, zone2, ID2, e2, s2, hres2, hget2, -⟩
          rw [hres] at hres2
          cases hres2
          rw [hget] at hget2
          cases hget2
      | error e =>
        by_cases h404 : env.is404Error e = true
        · rw [lbDestroy_step env tt rs rest s s1 lbAPI zone ID e hrs hres hget h404, ih s1 hrest]
          constructor
          · rintro ⟨s', hgone⟩
            exact ⟨s', lbAPI, zone, ID, e, s1, hres, hget, h404, hgone⟩
          · rintro ⟨s', lbAPI2, zone2, ID2, e2, s2, hres2, hget2, -, hgone⟩
            rw [hres] at hres2
            cases hres2
            rw [hget] at hget2
            cases hget2
            exact ⟨s', hgone⟩
        · have h404f : env.is404Error e = false := by simpa using h404
          constructor
          · intro h
            simp [testAccCheckScalewayLbDestroy, hrs, hres, hget, h404f] at h
          · rintro ⟨s', lbAPI2, zone2, ID2, e2, s2, hres2, hget2, h4042, -⟩
            rw [hres] at hres2
            cases hres2
            rw [hget] at hget2
            cases hget2
            rw [h404f] at h4042
            cases h4042

/-- On load balancers alone, after those that are gone, the check stops at the
first one that is not: with the resolution error, with the `still exists`
error naming its id when `GetLB` succeeds, with the error of `GetLB` when it
is not a not-found error. -/
theorem lbDestroy_first_failure {M σ : Type} (env : LbCheckEnv M σ) (tt : TestTools M)
    (gone : RootResources) (rs : ResourceState) (rest : RootResources) (s s' : σ)
    (hty : ∀ x ∈ gone ++ rs :: rest, x.Typ = "scaleway_lb")
    (hgone : LbAllGone env tt gone s s') :
    (∀ e, env.lbAPIWithZoneAndID tt.Meta rs.PrimaryID = .error e →
      (testAccCheckScalewayLbDestroy env tt (gone ++ rs :: rest) s).err = some e) ∧
    (∀ lbAPI zone ID lb s1,
      env.lbAPIWithZoneAndID tt.Meta rs.PrimaryID = .ok (lbAPI, zone, ID) →
      lbAPI.GetLB { Zone := zone, LBID := ID } s' = (.ok lb, s1) →
      (testAccCheckScalewayLbDestroy env tt (gone ++ rs :: rest) s).err
        = some { message := "load Balancer (" ++ rs.PrimaryID ++ ") still exists" }) ∧
    (∀ lbAPI zone ID e s1,
      env.lbAPIWithZoneAndID tt.Meta rs.PrimaryID = .ok (lbAPI, zone, ID) →
      lbAPI.GetLB { Zone := zone, LBID := ID } s' = (.error e, s1) →
      env.is404Error e = false →
      (testAccCheckScalewayLbDestroy env tt (gone ++ rs :: rest) s).err = some e) := by
  induction gone generalizing s with
  | nil =>
    have hrs : rs.Typ = "scaleway_lb" := hty rs (by simp)
    simp only [LbAllGone] at hgone
    subst hgone
    refine ⟨fun e hres => ?_, fun lbAPI zone ID lb s1 hres hget => ?_,
      fun lbAPI zone ID e s1 hres hget h404 => ?_⟩
    · simp [testAccCheckScalewayLbDestroy, hrs, hres]
    · simp [testAccCheckScalewayLbDestroy, hrs, hres, hget]
    · simp [testAccCheckScalewayLbDestroy, hrs, hres, hget, h404]
  | cons g gone2 ih =>
    have hg : g.Typ = "scaleway_lb" := hty g (by simp)
    have hty2 : ∀ x ∈ gone2 ++ rs :: rest, x.Typ = "scaleway_lb" :=
      fun x hx => hty x (by simp only [List.cons_append, List.mem_cons]; exact Or.inr hx)
    obtain ⟨lbAPI, zone, ID, e, s1, hres, hget, h404, hgone2⟩ := hgone
    have hstep := lbDestroy_step env tt g (gone2 ++ rs :: rest) s s1 lbAPI zone ID e hg hres
      hget h404
    simp only [List.cons_append, hstep]
    exact ih s1 hty2 hgone2

/-- The bare-metal check skips the resources of other types: it runs as on
the bare-metal servers alone. -/
theorem baremetalDestroy_filter {M σ : Type} (env : BaremetalCheckEnv M σ)
    (resources : RootResources) (s : σ) :
    testAccCheckScalewayBaremetalServerDestroy env resources s
      = testAccCheckScalewayBaremetalServerDestroy env
          (resources.filter (fun rs => rs.Typ == "scaleway_baremetal_server")) s := by
  induction resources generalizing s with
  | nil => rfl
  | cons rs rest ih =>
    by_cases hty : rs.Typ = "scaleway_baremetal_server"
    · have hfilter : (rs :: rest).filter (fun rs => rs.Typ == "scaleway_baremetal_server")
          = rs :: rest.filter (fun rs => rs.Typ == "scaleway_baremetal_server") := by
        simp [List.filter_cons, hty]
      rw [hfilter]
      simp only [testAccCheckScalewayBaremetalServerDestroy, ih]
    · have hfilter : (rs :: rest).filter (fun rs => rs.Typ == "scaleway_baremetal_server")
          = rest.filter (fun rs => rs.Typ == "scaleway_baremetal_server") := by
        simp [List.filter_cons, hty]
      rw [hfilter, ← ih]
      simp [testAccCheckScalewayBaremetalServerDestroy, hty]

/-- After a server that is gone, the check returns what it returns on
the remaining resources. -/
theorem baremetalDestroy_step {M σ : Type} (env : BaremetalCheckEnv M σ)
    (rs : ResourceState) (rest : RootResources) (s s1 : σ) (baremetalAPI : BaremetalAPI σ)
    (zonedId : ZonedID) (e : GoError) (hty : rs.Typ = "scaleway_baremetal_server")
    (hres : env.baremetalAPIWithZoneAndID env.testAccProviderMeta rs.PrimaryID = .ok (baremetalAPI, zonedId))
    (hget : baremetalAPI.GetServer { ServerID := zonedId.ID, Zone := zonedId.Zone } s = (.error e, s1))
    (h404 : env.is404Error e = true) :
    (testAccCheckScalewayBaremetalServerDestroy env (rs :: rest) s).err
      = (testAccCheckScalewayBaremetalServerDestroy env rest s1).err := by
  simp [testAccCheckScalewayBaremetalServerDestroy, hty, hres, hget, h404]

/-- On bare-metal servers alone, the check returns nil exactly when all are gone. -/
theorem baremetalDestroy_nil_iff {M σ : Type} (env : BaremetalCheckEnv M σ)
    (servers : RootResources) (s : σ)
    (hty : ∀ rs ∈ servers, rs.Typ = "scaleway_baremetal_server") :
    (testAccCheckScalewayBaremetalServerDestroy env servers s).err = none ↔
      ∃ s', BaremetalAllGone env servers s s' := by
  induction servers generalizing s with
  | nil => simp [testAccCheckScalewayBaremetalServerDestroy, BaremetalAllGone]
  | cons rs rest ih =>
    have hrs : rs.Typ = "scaleway_baremetal_server" := hty rs (List.mem_cons_self _ _)
    have hrest : ∀ x ∈ rest, x.Typ = "scaleway_baremetal_server" :=
      fun x hx => hty x (List.mem_cons_of_mem _ hx)
    cases hres : env.baremetalAPIWithZoneAndID env.testAccProviderMeta rs.PrimaryID with
    | error e =>
      constructor
      · intro h
        simp [testAccCheckScalewayBaremetalServerDestroy, hrs, hres] at h
      · rintro ⟨s', baremetalAPI, zonedId, e2, s1, hres2, -⟩
        rw [hres] at hres2
        cases hres2
    | ok v =>
      obtain ⟨baremetalAPI, zonedId⟩ := v
      rcases hget : baremetalAPI.GetServer (GetServerRequest.mk zonedId.ID zonedId.Zone) s
        with ⟨res, s1⟩
      cases res with
      | ok lb =>
        constructor
        · intro h
          simp [testAccCheckScalewayBaremetalServerDestroy, hrs, hres, hget] at h
        · rintro ⟨s', baremetalAPI2, zonedId2, e2, s2, hres2, hget2, -⟩
          rw [hres] at hres2
          cases hres2
          rw [hget] at hget2
          cases hget2
      | error e =>
        by_cases h404 : env.is404Error e = true
        · rw [baremetalDestroy_step env rs rest s s1 baremetalAPI zonedId e hrs hres hget h404, ih s1 hrest]
          constructor
          · rintro ⟨s', hgone⟩
            exact ⟨s', baremetalAPI, zonedId, e, s1, hres, hget, h404, hgone⟩
          · rintro ⟨s', baremetalAPI2, zonedId2, e2, s2, hres2, hget2, -, hgone⟩
            rw [hres] at hres2
            cases hres2
            rw [hget] at hget2
            cases hget2
            exact ⟨s', hgone⟩
        · have h404f : env.is404Error e = false := by simpa using h404
          constructor
          · intro h
            simp [testAccCheckScalewayBaremetalServerDestroy, hrs, hres, hget, h404f] at h
          · rintro ⟨s', baremetalAPI2, zonedId2, e2, s2, hres2, hget2, h4042, -⟩
            rw [hres] at hres2
            cases hres2
            rw [hget] at hget2
            cases hget2
            rw [h404f] at h4042
            cases h4042

/-- On bare-metal servers alone, after those that are gone, the check stops at the
first one that is not: with the resolution error, with the `still exists`
error naming its id when `GetServer` succeeds, with the error of `GetServer` when it
is not a not-found error. -/
theorem baremetalDestroy_first_failure {M σ : Type} (env : BaremetalCheckEnv M σ)
    (gone : RootResources) (rs : ResourceState) (rest : RootResources) (s s' : σ)
    (hty : ∀ x ∈ gone ++ rs :: rest, x.Typ = "scaleway_baremetal_server")
    (hgone : BaremetalAllGone env gone s s') :
    (∀ e, env.baremetalAPIWithZoneAndID env.testAccProviderMeta rs.PrimaryID = .error e →
      (testAccCheckScalewayBaremetalServerDestroy env (gone ++ rs :: rest) s).err = some e) ∧
    (∀ baremetalAPI zonedId server s1,
      env.baremetalAPIWithZoneAndID env.testAccProviderMeta rs.PrimaryID = .ok (baremetalAPI, zonedId) →
      baremetalAPI.GetServer { ServerID := zonedId.ID, Zone := zonedId.Zone } s' = (.ok server, s1) →
      (testAccCheckScalewayBaremetalServerDestroy env (gone ++ rs :: rest) s).err
        = some { message := "server (" ++ rs.PrimaryID ++ ") still exists" }) ∧
    (∀ baremetalAPI zonedId e s1,
      env.baremetalAPIWithZoneAndID env.testAccProviderMeta rs.PrimaryID = .ok (baremetalAPI, zonedId) →
      baremetalAPI.GetServer { ServerID := zonedId.ID, Zone := zonedId.Zone } s' = (.error e, s1) →
      env.is404Error e = false →
      (testAccCheckScalewayBaremetalServerDestroy env (gone ++ rs :: rest) s).err = some e) := by
  induction gone generalizing s with
  | nil =>
    have hrs : rs.Typ = "scaleway_baremetal_server" := hty rs (by simp)
    simp only [BaremetalAllGone] at hgone
    subst hgone
    refine ⟨fun e hres => ?_, fun baremetalAPI zonedId server s1 hres hget => ?_,
      fun baremetalAPI zonedId e s1 hres hget h404 => ?_⟩
    · simp [testAccCheckScalewayBaremetalServerDestroy, hrs, hres]
    · simp [testAccCheckScalewayBaremetalServerDestroy, hrs, hres, hget]
    · simp [testAccCheckScalewayBaremetalServerDestroy, hrs, hres, hget, h404]
  | cons g gone2 ih =>
    have hg : g.Typ = "scaleway_baremetal_server" := hty g (by simp)
    have hty2 : ∀ x ∈ gone2 ++ rs :: rest, x.Typ = "scaleway_baremetal_server" :=
      fun x hx => hty x (by simp only [List.cons_append, List.mem_cons]; exact Or.inr hx)
    obtain ⟨baremetalAPI, zonedId, e, s1, hres, hget, h404, hgone2⟩ := hgone
    have hstep := baremetalDestroy_step env g (gone2 ++ rs :: rest) s s1 baremetalAPI zonedId e hg hres
      hget h404
    simp only [List.cons_append, hstep]
    exact ih s1 hty2 hgone2

/-- C15: `testAccCheckScalewayLbDestroy` and
`testAccCheckScalewayBaremetalServerDestroy`, run on any resources of the root
module (in any order) from any vendor state. Each returns nil exactly when
every resource of the checked type (`scaleway_lb`,
`scaleway_baremetal_server`) is gone: its id resolves and the Get call on what
it resolves to fails with an error classified as not found. After the
resources of the checked type that are gone, at the first one that is not, the
check returns the resolution error if the id does not resolve, the error
`... (<resource id>) still exists` if the Get call succeeds, and the error of
the Get call itself if it is not a not-found error. Every Get call issued is
the query of a resource of the checked type, so resources of other types are
never queried. -/
theorem destroy_checks_pass_iff_gone {M σ M2 σ2 : Type} (lbEnv : LbCheckEnv M σ)
    (tt : TestTools M) (bmEnv : BaremetalCheckEnv M2 σ2) (resources : RootResources)
    (s : σ) (s2 : σ2) :
    (((testAccCheckScalewayLbDestroy lbEnv tt resources s).err = none ↔
        ∃ s', LbAllGone lbEnv tt (resources.filter (fun rs => rs.Typ == "scaleway_lb")) s s') ∧
      (∀ gone rs rest s',
        resources.filter (fun rs => rs.Typ == "scaleway_lb") = gone ++ rs :: rest →
        LbAllGone lbEnv tt gone s s' →
        (∀ e, lbEnv.lbAPIWithZoneAndID tt.Meta rs.PrimaryID = .error e →
          (testAccCheckScalewayLbDestroy lbEnv tt resources s).err = some e) ∧
        (∀ lbAPI zone ID lb s1,
          lbEnv.lbAPIWithZoneAndID tt.Meta rs.PrimaryID = .ok (lbAPI, zone, ID) →
          lbAPI.GetLB { Zone := zone, LBID := ID } s' = (.ok lb, s1) →
          (testAccCheckScalewayLbDestroy lbEnv tt resources s).err
            = some { message := "load Balancer (" ++ rs.PrimaryID ++ ") still exists" }) ∧
        (∀ lbAPI zone ID e s1,
          lbEnv.lbAPIWithZoneAndID tt.Meta rs.PrimaryID = .ok (lbAPI, zone, ID) →
          lbAPI.GetLB { Zone := zone, LBID := ID } s' = (.error e, s1) →
          lbEnv.is404Error e = false →
          (testAccCheckScalewayLbDestroy lbEnv tt resources s).err = some e)) ∧
      (∀ c ∈ (testAccCheckScalewayLbDestroy lbEnv tt resources s).calls,
        ∃ rs ∈ resources, rs.Typ = "scaleway_lb" ∧
        ∃ lbAPI zone ID,
          lbEnv.lbAPIWithZoneAndID tt.Meta rs.PrimaryID = .ok (lbAPI, zone, ID) ∧
          c = .GetLB { Zone := zone, LBID := ID } c.err)) ∧
    (((testAccCheckScalewayBaremetalServerDestroy bmEnv resources s2).err = none ↔
        ∃ s', BaremetalAllGone bmEnv
          (resources.filter (fun rs => rs.Typ == "scaleway_baremetal_server")) s2 s') ∧
      (∀ gone rs rest s',
        resources.filter (fun rs => rs.Typ == "scaleway_baremetal_server")
          = gone ++ rs :: rest →
        BaremetalAllGone bmEnv gone s2 s' →
        (∀ e, bmEnv.baremetalAPIWithZoneAndID bmEnv.testAccProviderMeta rs.PrimaryID
            = .error e →
          (testAccCheckScalewayBaremetalServerDestroy bmEnv resources s2).err = some e) ∧
        (∀ baremetalAPI zonedId server s1,
          bmEnv.baremetalAPIWithZoneAndID bmEnv.testAccProviderMeta rs.PrimaryID
            = .ok (baremetalAPI, zonedId) →
          baremetalAPI.GetServer { ServerID := zonedId.ID, Zone := zonedId.Zone } s'
            = (.ok server, s1) →
          (testAccCheckScalewayBaremetalServerDestroy bmEnv resources s2).err
            = some { message := "server (" ++ rs.PrimaryID ++ ") still exists" }) ∧
        (∀ baremetalAPI zonedId e s1,
          bmEnv.baremetalAPIWithZoneAndID bmEnv.testAccProviderMeta rs.PrimaryID
            = .ok (baremetalAPI, zonedId) →
          baremetalAPI.GetServer { ServerID := zonedId.ID, Zone := zonedId.Zone } s'
            = (.error e, s1) →
          bmEnv.is404Error e = false →
          (testAccCheckScalewayBaremetalServerDestroy bmEnv resources s2).err = some e)) ∧
      (∀ c ∈ (testAccCheckScalewayBaremetalServerDestroy bmEnv resources s2).calls,
        ∃ rs ∈ resources, rs.Typ = "scaleway_baremetal_server" ∧
        ∃ baremetalAPI zonedId,
          bmEnv.baremetalAPIWithZoneAndID bmEnv.testAccProviderMeta rs.PrimaryID
            = .ok (baremetalAPI, zonedId) ∧
          c = .GetServer { ServerID := zonedId.ID, Zone := zonedId.Zone } c.err)) := by
  have hlb : ∀ x ∈ resources.filter (fun rs => rs.Typ == "scaleway_lb"),
      x.Typ = "scaleway_lb" := by
    intro x hx
    simpa using (List.mem_filter.mp hx).2
  have hbm : ∀ x ∈ resources.filter (fun rs => rs.Typ == "scaleway_baremetal_server"),
      x.Typ = "scaleway_baremetal_server" := by
    intro x hx
    simpa using (List.mem_filter.mp hx).2
  refine ⟨⟨?_, ?_, ?_⟩, ⟨?_, ?_, ?_⟩⟩
  · rw [lbDestroy_filter]
    exact lbDestroy_nil_iff lbEnv tt _ s hlb
  · intro gone rs rest s' hsplit hgone
    rw [lbDestroy_filter, hsplit]
    exact lbDestroy_first_failure lbEnv tt gone rs rest s s' (hsplit ▸ hlb) hgone
  · intro c hc
    obtain ⟨rs, hmem, hty, lbAPI, zone, ID, hres, hreq, -⟩ :=
      (lbDestroy_checked lbEnv tt resources s).2.1 c hc
    exact ⟨rs, hmem, hty, lbAPI, zone, ID, hres, hreq⟩
  · rw [baremetalDestroy_filter]
    exact baremetalDestroy_nil_iff bmEnv _ s2 hbm
  · intro gone rs rest s' hsplit hgone
    rw [baremetalDestroy_filter, hsplit]
    exact baremetalDestroy_first_failure bmEnv gone rs rest s2 s' (hsplit ▸ hbm) hgone
  · intro c hc
    obtain ⟨rs, hmem, hty, baremetalAPI, zonedId, hres, hreq, -⟩ :=
      (baremetalDestroy_checked bmEnv resources s2).2.1 c hc
    exact ⟨rs, hmem, hty, baremetalAPI, zonedId, hres, hreq⟩

/-- C15 on the in-memory vendors: the load balancer is gone (`GetLB` answers
404), so its check returns nil; the server is still held (`GetServer`
succeeds), so its check returns the `still exists` error naming its id. -/
theorem destroy_checks_pass_iff_gone_witness :
    memoryZonedAPI.GetLB { Zone := "fr-par-1", LBID := "lb-a" } []
      = (.error resourceNotFound, []) ∧
    (testAccCheckScalewayLbDestroy memoryLbCheckEnv { Meta := () } destroyedResources
        []).err = none ∧
    memoryBaremetalAPI.GetServer { ServerID := "srv-1", Zone := "fr-par-2" } [{ ID := "srv-1" }]
      = (.ok { ID := "srv-1" }, [{ ID := "srv-1" }]) ∧
    (testAccCheckScalewayBaremetalServerDestroy memoryBaremetalCheckEnv destroyedResources
        [{ ID := "srv-1" }]).err
      = some { message := "server (" ++ "fr-par-2/srv-1" ++ ") still exists" } :=
  ⟨rfl,
    (destroy_checks_pass_iff_gone memoryLbCheckEnv { Meta := () } memoryBaremetalCheckEnv
      destroyedResources [] [{ ID := "srv-1" }]).1.1.mpr
      ⟨[], memoryZonedAPI, "fr-par-1", "lb-a", resourceNotFound, [], rfl, rfl, rfl, rfl⟩,
    rfl,
    ((destroy_checks_pass_iff_gone memoryLbCheckEnv { Meta := () } memoryBaremetalCheckEnv
      destroyedResources [] [{ ID := "srv-1" }]).2.2.1 []
      { Typ := "scaleway_baremetal_server", PrimaryID := "fr-par-2/srv-1" } []
      [{ ID := "srv-1" }] (by decide) rfl).2.1 memoryBaremetalAPI
      { ID := "srv-1", Zone := "fr-par-2" } { ID := "srv-1" } [{ ID := "srv-1" }] rfl rfl⟩

/-- The loop of `testSweepBaremetalServer`: either every deletion succeeds and
the loop returns nil, or it stops at the first deletion that fails, with the
wrapped error, the servers after it not being attempted. -/
theorem testSweepBaremetalServerLoop_cases {σ : Type} (baremetalAPI : BaremetalAPI σ)
    (servers : List Server) (s : σ) :
    ((testSweepBaremetalServerLoop baremetalAPI servers s).err = none ∧
      (testSweepBaremetalServerLoop baremetalAPI servers s).calls
        = servers.map (fun sv => .DeleteServer { ServerID := sv.ID } none)) ∨
    (∃ deleted failed remaining e, servers = deleted ++ failed :: remaining ∧
      (testSweepBaremetalServerLoop baremetalAPI servers s).calls
        = deleted.map (fun sv => .DeleteServer { ServerID := sv.ID } none)
            ++ [.DeleteServer { ServerID := failed.ID } (some e)] ∧
      (testSweepBaremetalServerLoop baremetalAPI servers s).err
        = some { message := "error deleting server in sweeper: " ++ e.message }) := by
  induction servers generalizing s with
  | nil => left; simp [testSweepBaremetalServerLoop]
  | cons sv rest ih =>
    rcases hdel : baremetalAPI.DeleteServer (DeleteServerRequest.mk sv.ID) s with ⟨res, s1⟩
    cases res with
    | error e =>
      right
      exact ⟨[], sv, rest, e, rfl, by simp [testSweepBaremetalServerLoop, hdel]⟩
    | ok deletedServer =>
      have hrun : testSweepBaremetalServerLoop baremetalAPI (sv :: rest) s
          = { testSweepBaremetalServerLoop baremetalAPI rest s1 with
              calls := .DeleteServer { ServerID := sv.ID } none ::
                (testSweepBaremetalServerLoop baremetalAPI rest s1).calls } := by
        simp [testSweepBaremetalServerLoop, hdel]
      rw [hrun]
      rcases ih s1 with ⟨h1, h2⟩ | ⟨deleted, failed, remaining, e, hsplit, h2, h1⟩
      · left
        simp [h1, h2]
      · right
        exact ⟨sv :: deleted, failed, remaining, e, by simp [hsplit], by simp [h2], h1⟩

/-- C16: the callback of `testSweepBaremetalServer` (which the sweeper hands,
with the region, to `sweepZones`). When `ListServers` fails the callback
returns nil and issues no `DeleteServer`. When it succeeds with `servers`, the
callback calls `DeleteServer` on the servers in list order: either every
deletion succeeds and it returns nil, or it stops at the first deletion that
fails, returning `error deleting server in sweeper: <error>`, the remaining
servers not being attempted; so it returns nil only with every listed server
deleted. -/
theorem testSweepBaremetalServer_callback {Client σ R : Type}
    (NewAPI : Client → BaremetalAPI σ)
    (sweepZones : String → (Client → σ → Run σ BaremetalCall) → R) (region : String)
    (scwClient : Client) (s : σ) :
    testSweepBaremetalServer NewAPI sweepZones region
      = sweepZones region (testSweepBaremetalServerCallback NewAPI) ∧
    (∀ err s1, (NewAPI scwClient).ListServers {} s = (.error err, s1) →
      (testSweepBaremetalServerCallback NewAPI scwClient s).err = none ∧
      (testSweepBaremetalServerCallback NewAPI scwClient s).calls
        = [.ListServers {} (some err)]) ∧
    (∀ servers s1, (NewAPI scwClient).ListServers {} s = (.ok { Servers := servers }, s1) →
      (((testSweepBaremetalServerCallback NewAPI scwClient s).err = none ∧
          (testSweepBaremetalServerCallback NewAPI scwClient s).calls
            = .ListServers {} none ::
                servers.map (fun sv => .DeleteServer { ServerID := sv.ID } none)) ∨
        (∃ deleted failed remaining e, servers = deleted ++ failed :: remaining ∧
          (testSweepBaremetalServerCallback NewAPI scwClient s).calls
            = .ListServers {} none ::
                (deleted.map (fun sv => .DeleteServer { ServerID := sv.ID } none)
                  ++ [.DeleteServer { ServerID := failed.ID } (some e)]) ∧
          (testSweepBaremetalServerCallback NewAPI scwClient s).err
            = some { message := "error deleting server in sweeper: " ++ e.message })) ∧
      ((testSweepBaremetalServerCallback NewAPI scwClient s).err = none →
        (testSweepBaremetalServerCallback NewAPI scwClient s).calls
          = .ListServers {} none ::
              servers.map (fun sv => .DeleteServer { ServerID := sv.ID } none))) := by
  refine ⟨rfl, ?_, ?_⟩
  · intro err s1 hlist
    simp [testSweepBaremetalServerCallback, hlist]
  · intro servers s1 hlist
    have hcb : testSweepBaremetalServerCallback NewAPI scwClient s
        = { testSweepBaremetalServerLoop (NewAPI scwClient) servers s1 with
            calls := .ListServers {} none ::
              (testSweepBaremetalServerLoop (NewAPI scwClient) servers s1).calls } := by
      simp [testSweepBaremetalServerCallback, hlist]
    rw [hcb]
    rcases testSweepBaremetalServerLoop_cases (NewAPI scwClient) servers s1 with
      ⟨h1, h2⟩ | ⟨deleted, failed, remaining, e, hsplit, h2, h1⟩
    · exact ⟨Or.inl ⟨h1, by simp [h2]⟩, fun _ => by simp [h2]⟩
    · refine ⟨Or.inr ⟨deleted, failed, remaining, e, hsplit, by simp [h2], h1⟩, fun h => ?_⟩
      simp [h1] at h

/-- C16 on the in-memory vendor: of three leftover servers the second cannot
be deleted; the callback deletes the first, fails on the second and does not
attempt the third. -/
theorem testSweepBaremetalServer_callback_witness :
    (testSweepBaremetalServerCallback (fun _ => memoryBaremetalAPI) () leftoverServers).calls
      = [ .ListServers {} none,
          .DeleteServer { ServerID := "srv-1" } none,
          .DeleteServer { ServerID := "srv-locked" } (some permissionDenied) ] ∧
    (testSweepBaremetalServerCallback (fun _ => memoryBaremetalAPI) () leftoverServers).err
      = some { message := "error deleting server in sweeper: " ++ permissionDenied.message } ∧
    ¬ ((testSweepBaremetalServerCallback (fun _ => memoryBaremetalAPI) ()
          leftoverServers).err = none) :=
  ⟨by decide, by decide, fun h => by
    have hcalls := ((testSweepBaremetalServer_callback (fun _ => memoryBaremetalAPI)
      (fun region _ => region) "fr-par" () leftoverServers).2.2 leftoverServers leftoverServers
      rfl).2 h
    revert hcalls
    decide⟩

end Scaleway
